import Mathlib

set_option maxRecDepth 100000
set_option maxHeartbeats 1000000

def xtime (n : Nat) : Nat :=
  let m := n % 256
  if m < 128 then 2 * m else (2 * m) ^^^ 0x11b

def gmul2 (n : Nat) : Nat := xtime n

def gmul3 (n : Nat) : Nat := xtime n ^^^ (n % 256)

def gmul9 (n : Nat) : Nat := xtime (xtime (xtime n)) ^^^ (n % 256)

def gmul11 (n : Nat) : Nat := xtime (xtime (xtime n)) ^^^ xtime n ^^^ (n % 256)

def gmul13 (n : Nat) : Nat := xtime (xtime (xtime n)) ^^^ xtime (xtime n) ^^^ (n % 256)

def gmul14 (n : Nat) : Nat := xtime (xtime (xtime n)) ^^^ xtime (xtime n) ^^^ xtime n

def sboxN : Nat := 2869618975290639062594974519597816386035077209210385677284518162336985023502962151465775969507961862820568736543004676439868535775640188584098917533413284844376797297285941524888791401501466624530423689326528054213168201056672989590893583853414110162539122864583953358348775951166211353578440977400428507475679327181038682772945817200201960445064847785221508011893952350688324234443749897213621340677040612747745615276448919507935121141307752692835344166708617454322778699219895865633266409040561742768581056182730443599545881830075941537620590442514083341749674612746994879540562701631131184186066652929592955206755

def invSboxN : Nat := 15785769749828884342349381641981096363179738000380205650940338083111619982568718420166261191398703005748170232611805704157196303061330872280026969925224128193193768962594508714770967646139604422718174787315048227180018877623049221087186576642191304514338137614235628241783007805847129270530950856841486400764657112140097236091222567730363620332611309375046737430203438830593833719428588466121688739068564421474273450162064709239629809347626728710072303178617319436726577534667237755444692000788692193415136619289353224918429728194544458916874716857284226411602766869706570927007876872095880586785662942963508062062930

def sbox (n : Nat) : Nat := (sboxN >>> (8 * (n % 256))) &&& 255

def invSbox (n : Nat) : Nat := (invSboxN >>> (8 * (n % 256))) &&& 255

def subBytes (s : List Nat) : List Nat := s.map sbox

def invSubBytes (s : List Nat) : List Nat := s.map invSbox

def shiftRows : List Nat → List Nat
  | [a0, a1, a2, a3, a4, a5, a6, a7, a8, a9, a10, a11, a12, a13, a14, a15] =>
      [a0, a5, a10, a15, a4, a9, a14, a3, a8, a13, a2, a7, a12, a1, a6, a11]
  | s => s

def invShiftRows : List Nat → List Nat
  | [a0, a1, a2, a3, a4, a5, a6, a7, a8, a9, a10, a11, a12, a13, a14, a15] =>
      [a0, a13, a10, a7, a4, a1, a14, a11, a8, a5, a2, a15, a12, a9, a6, a3]
  | s => s

def mixCol (a b c d : Nat) : List Nat :=
  [gmul2 a ^^^ gmul3 b ^^^ c ^^^ d,
   a ^^^ gmul2 b ^^^ gmul3 c ^^^ d,
   a ^^^ b ^^^ gmul2 c ^^^ gmul3 d,
   gmul3 a ^^^ b ^^^ c ^^^ gmul2 d]

def invMixCol (a b c d : Nat) : List Nat :=
  [gmul14 a ^^^ gmul11 b ^^^ gmul13 c ^^^ gmul9 d,
   gmul9 a ^^^ gmul14 b ^^^ gmul11 c ^^^ gmul13 d,
   gmul13 a ^^^ gmul9 b ^^^ gmul14 c ^^^ gmul11 d,
   gmul11 a ^^^ gmul13 b ^^^ gmul9 c ^^^ gmul14 d]

def mixColumns : List Nat → List Nat
  | [a0, a1, a2, a3, a4, a5, a6, a7, a8, a9, a10, a11, a12, a13, a14, a15] =>
      mixCol a0 a1 a2 a3 ++ mixCol a4 a5 a6 a7 ++ mixCol a8 a9 a10 a11 ++ mixCol a12 a13 a14 a15
  | s => s

def invMixColumns : List Nat → List Nat
  | [a0, a1, a2, a3, a4, a5, a6, a7, a8, a9, a10, a11, a12, a13, a14, a15] =>
      invMixCol a0 a1 a2 a3 ++ invMixCol a4 a5 a6 a7 ++ invMixCol a8 a9 a10 a11 ++
        invMixCol a12 a13 a14 a15
  | s => s

def xorW (a b : List Nat) : List Nat := List.zipWith (fun x y => x ^^^ y) a b

def subWord (w : List Nat) : List Nat := w.map sbox

def rotWord : List Nat → List Nat
  | [a, b, c, d] => [b, c, d, a]
  | w => w

def rconv (j : Nat) : Nat := [1, 2, 4, 8, 16, 32, 64].getD (j - 1) 0

def chunk4 : List Nat → List (List Nat)
  | [] => []
  | [a] => [[a]]
  | [a, b] => [[a, b]]
  | [a, b, c] => [[a, b, c]]
  | a :: b :: c :: d :: rest => [a, b, c, d] :: chunk4 rest

def expandFrom (ws : List (List Nat)) : Nat → List (List Nat)
  | 0 => ws
  | fuel + 1 =>
      let i := ws.length
      let prev := ws.getD (i - 1) []
      let temp :=
        if i % 8 == 0 then xorW (subWord (rotWord prev)) [rconv (i / 8), 0, 0, 0]
        else if i % 8 == 4 then subWord prev
        else prev
      expandFrom (ws ++ [xorW (ws.getD (i - 8) []) temp]) fuel

def keyWords (key : List Nat) : List (List Nat) := expandFrom (chunk4 key) 52

def roundKey (key : List Nat) (i : Nat) : List Nat :=
  (((keyWords key).drop (4 * i)).take 4).flatten

def wordWF (w : List Nat) : Prop := w.length = 4 ∧ ∀ x ∈ w, x < 256

def KeyWF (key : List Nat) : Prop := key.length = 32 ∧ ∀ x ∈ key, x < 256

def StateWF (s : List Nat) : Prop := s.length = 16 ∧ ∀ x ∈ s, x < 256

def midKeys (key : List Nat) : List (List Nat) :=
  (List.range 13).map (fun i => roundKey key (i + 1))

def roundF (s k : List Nat) : List Nat := xorW (mixColumns (shiftRows (subBytes s))) k

def invRoundF (s k : List Nat) : List Nat :=
  invSubBytes (invShiftRows (invMixColumns (xorW s k)))

def aesEncBlock (key b : List Nat) : List Nat :=
  xorW (shiftRows (subBytes (List.foldl roundF (xorW b (roundKey key 0)) (midKeys key))))
    (roundKey key 14)

def aesDecBlock (key b : List Nat) : List Nat :=
  xorW
    (List.foldl invRoundF (invSubBytes (invShiftRows (xorW b (roundKey key 14))))
      (midKeys key).reverse)
    (roundKey key 0)

def chunk16 : List Nat → List (List Nat)
  | a0 :: a1 :: a2 :: a3 :: a4 :: a5 :: a6 :: a7 :: a8 :: a9 :: a10 :: a11 :: a12 :: a13 ::
      a14 :: a15 :: rest =>
      [a0, a1, a2, a3, a4, a5, a6, a7, a8, a9, a10, a11, a12, a13, a14, a15] :: chunk16 rest
  | [] => []
  | l => [l]

def cbcEncrypt (key : List Nat) : List Nat → List (List Nat) → List (List Nat)
  | _, [] => []
  | prev, b :: bs =>
      let c := aesEncBlock key (xorW prev b)
      c :: cbcEncrypt key c bs

def cbcDecrypt (key : List Nat) : List Nat → List (List Nat) → List (List Nat)
  | _, [] => []
  | prev, c :: cs => xorW prev (aesDecBlock key c) :: cbcDecrypt key c cs

def hexDigit (n : Nat) : Nat := if n < 10 then 48 + n else 87 + n

def hexEncode (l : List Nat) : List Nat :=
  (l.map (fun b => [hexDigit (b / 16), hexDigit (b % 16)])).flatten

def hexDigitVal (c : Nat) : Option Nat :=
  if 48 ≤ c ∧ c ≤ 57 then some (c - 48)
  else if 97 ≤ c ∧ c ≤ 102 then some (c - 87)
  else if 65 ≤ c ∧ c ≤ 70 then some (c - 55)
  else none

def hexDecode : List Nat → Option (List Nat)
  | [] => some []
  | [_] => none
  | c1 :: c2 :: rest =>
      match hexDigitVal c1, hexDigitVal c2, hexDecode rest with
      | some hi, some lo, some bs => some ((16 * hi + lo) :: bs)
      | _, _, _ => none

def pad16 (l : List Nat) : List Nat :=
  l ++ List.replicate (16 - l.length % 16) (16 - l.length % 16)

def unpad16 (l : List Nat) : Option (List Nat) :=
  let k := l.getLast?.getD 0
  if 1 ≤ k ∧ k ≤ 16 ∧ k ≤ l.length ∧ (l.drop (l.length - k)).all (fun x => x == k)
  then some (l.take (l.length - k)) else none

def b64Char (n : Nat) : Nat :=
  let m := n % 64
  if m < 26 then 65 + m
  else if m < 52 then 71 + m
  else if m < 62 then m - 4
  else if m = 62 then 43 else 47

def base64Encode : List Nat → List Nat
  | [] => []
  | [a] => [b64Char (a / 4), b64Char (a % 4 * 16), 61, 61]
  | [a, b] => [b64Char (a / 4), b64Char (a % 4 * 16 + b / 16), b64Char (b % 16 * 4), 61]
  | a :: b :: c :: rest =>
      b64Char (a / 4) :: b64Char (a % 4 * 16 + b / 16) :: b64Char (b % 16 * 4 + c / 64) ::
        b64Char (c % 64) :: base64Encode rest

def b64Alphabet : List Nat :=
  [65, 66, 67, 68, 69, 70, 71, 72, 73, 74, 75, 76, 77, 78, 79, 80, 81, 82, 83, 84, 85, 86,
   87, 88, 89, 90,
   97, 98, 99, 100, 101, 102, 103, 104, 105, 106, 107, 108, 109, 110, 111, 112, 113, 114,
   115, 116, 117, 118, 119, 120, 121, 122,
   48, 49, 50, 51, 52, 53, 54, 55, 56, 57, 43, 47, 61]

def utf8EncodeChar (c : Nat) : List Nat :=
  if c < 0x80 then [c]
  else if c < 0x800 then [0xC0 + c / 64, 0x80 + c % 64]
  else if c < 0x10000 then [0xE0 + c / 4096, 0x80 + c / 64 % 64, 0x80 + c % 64]
  else [0xF0 + c / 262144, 0x80 + c / 4096 % 64, 0x80 + c / 64 % 64, 0x80 + c % 64]

def encodeUtf8 (s : List Nat) : List Nat := (s.map utf8EncodeChar).flatten

def ValidScalar (c : Nat) : Prop := c < 0xD800 ∨ (0xE000 ≤ c ∧ c < 0x110000)

def StrWF (s : List Nat) : Prop := ∀ c ∈ s, ValidScalar c

def decodeOne (b : Nat) (rest : List Nat) : Nat × Nat :=
  if b < 0x80 then (b, 0)
  else if 0xC2 ≤ b ∧ b ≤ 0xDF then
    match rest with
    | b1 :: _ =>
        if 0x80 ≤ b1 ∧ b1 ≤ 0xBF then ((b - 0xC0) * 64 + (b1 - 0x80), 1) else (0xFFFD, 0)
    | [] => (0xFFFD, 0)
  else if 0xE0 ≤ b ∧ b ≤ 0xEF then
    match rest with
    | b1 :: b2 :: _ =>
        if (0x80 ≤ b1 ∧ b1 ≤ 0xBF) ∧ (0x80 ≤ b2 ∧ b2 ≤ 0xBF) ∧
            (b = 0xE0 → 0xA0 ≤ b1) ∧ (b = 0xED → b1 < 0xA0) then
          ((b - 0xE0) * 4096 + (b1 - 0x80) * 64 + (b2 - 0x80), 2)
        else (0xFFFD, 0)
    | _ => (0xFFFD, 0)
  else if 0xF0 ≤ b ∧ b ≤ 0xF4 then
    match rest with
    | b1 :: b2 :: b3 :: _ =>
        if (0x80 ≤ b1 ∧ b1 ≤ 0xBF) ∧ (0x80 ≤ b2 ∧ b2 ≤ 0xBF) ∧ (0x80 ≤ b3 ∧ b3 ≤ 0xBF) ∧
            (b = 0xF0 → 0x90 ≤ b1) ∧ (b = 0xF4 → b1 < 0x90) then
          ((b - 0xF0) * 262144 + (b1 - 0x80) * 4096 + (b2 - 0x80) * 64 + (b3 - 0x80), 3)
        else (0xFFFD, 0)
    | _ => (0xFFFD, 0)
  else (0xFFFD, 0)

def decodeUtf8 : List Nat → List Nat
  | [] => []
  | b :: rest =>
      (decodeOne b rest).1 :: decodeUtf8 (rest.drop (decodeOne b rest).2)
  termination_by l => l.length
  decreasing_by simp [List.length_drop]; omega

/-- Strings are modelled as lists of Unicode code points (`List Nat`); byte
sequences are lists of naturals below 256. -/
abbrev Str := List Nat

/-- Modelled from the spec: the error taxonomy of section 7 of the design
(`RandomGenerationError`, `KeyDerivationError`, `CipherConfigurationError`,
`DecryptionIntegrityError`); the TypeScript source relies on untyped platform
errors from the Node `crypto` module, and the value-object and error classes
are not part of `src/`. -/
inductive CryptoError where
  | RandomGenerationError : CryptoError
  | KeyDerivationError : CryptoError
  | CipherConfigurationError : CryptoError
  | DecryptionIntegrityError : CryptoError
deriving DecidableEq, Repr

/-- Modelled from the spec: `Password` is a trivial typed wrapper around its
string value (`./domainObject/Password`, imported by the source but not under
`src/`). -/
structure Password where
  value : Str
deriving DecidableEq, Repr

/-- Modelled from the spec: `Salt` is a trivial typed wrapper around its
string value (`./domainObject/Salt`). -/
structure Salt where
  value : Str
deriving DecidableEq, Repr

/-- Modelled from the spec: `InitializationVector` is a trivial typed wrapper
around its string value (`./domainObject/InitializationVector`). -/
structure InitializationVector where
  value : Str
deriving DecidableEq, Repr

/-- Modelled from the spec: `CommonKey` is a trivial typed wrapper around its
string value (`./domainObject/CommonKey`). -/
structure CommonKey where
  value : Str
deriving DecidableEq, Repr

/-- State of a Node `crypto.Cipher` or `crypto.Decipher` bound to a key and an
initialization vector, as produced by `crypto.createCipheriv` and
`crypto.createDecipheriv` for `aes-256-cbc`: the key bytes and the IV bytes. -/
structure CipherContext where
  keyBytes : List Nat
  ivBytes : List Nat
deriving DecidableEq, Repr

namespace CryptographProcessor

/-- Source: `private readonly keyLength = 32`. -/
def keyLength : Nat := 32

/-- Source: `createRandomBytes(size)`, which computes
`crypto.randomBytes(size).toString('base64').substring(0, size)`.  The raw
output of `crypto.randomBytes(size)` is passed in explicitly as `randomBytes`
(the platform RNG is the only effect of the function). -/
def createRandomBytes (size : Nat) (randomBytes : List Nat) : Str :=
  (base64Encode randomBytes).take size

/-- Source: `createCommonKey(password, salt)`, which computes
`crypto.scryptSync(password.value, salt.value, this.keyLength).toString('base64').substring(0, this.keyLength)`
and wraps it in a `CommonKey`.  `scryptSync` is Node's scrypt; it is passed in
as a function argument (it may fail, modelled by `Except`), and its raw byte
output is base64-encoded and truncated exactly as in the source. -/
def createCommonKey (scryptSync : Str → Str → Nat → Except CryptoError (List Nat))
    (password : Password) (salt : Salt) : Except CryptoError CommonKey :=
  match scryptSync password.value salt.value keyLength with
  | .error e => .error e
  | .ok key => .ok ⟨(base64Encode key).take keyLength⟩

/-- Source: `createCipher(commonKey, iv)` =
`crypto.createCipheriv('aes-256-cbc', commonKey.value, iv.value)`.  Node
converts the string key and IV to UTF-8 bytes and validates their lengths
(32 and 16); a mismatch raises an invalid key/IV length error
(`CipherConfigurationError` in the design's taxonomy). -/
def createCipher (commonKey : CommonKey) (iv : InitializationVector) :
    Except CryptoError CipherContext :=
  let kb := encodeUtf8 commonKey.value
  let ivb := encodeUtf8 iv.value
  if kb.length = 32 ∧ ivb.length = 16 then .ok ⟨kb, ivb⟩
  else .error .CipherConfigurationError

/-- Source: `createDecipher(commonKey, iv)` =
`crypto.createDecipheriv('aes-256-cbc', commonKey.value, iv.value)`, with the
same length validation as `createCipher`. -/
def createDecipher (commonKey : CommonKey) (iv : InitializationVector) :
    Except CryptoError CipherContext :=
  let kb := encodeUtf8 commonKey.value
  let ivb := encodeUtf8 iv.value
  if kb.length = 32 ∧ ivb.length = 16 then .ok ⟨kb, ivb⟩
  else .error .CipherConfigurationError

/-- Source: `encryption(cipher, target)` =
`cipher.update(target, 'utf8', 'hex') + cipher.final('hex')`.  For AES-256-CBC
this is: UTF-8 encode the plaintext, apply PKCS#7 padding, encrypt the blocks
in CBC mode, and hex-encode the concatenated output of `update` and `final`. -/
def encryption (cipher : CipherContext) (target : Str) : Str :=
  hexEncode ((cbcEncrypt cipher.keyBytes cipher.ivBytes
    (chunk16 (pad16 (encodeUtf8 target)))).flatten)

/-- Source: `decryption(decipher, target)` =
`decipher.update(target, 'hex', 'utf8') + decipher.final('utf8')`.  For
AES-256-CBC this is: hex-decode the ciphertext (full blocks only — a partial
final block makes `final` raise), CBC-decrypt, validate and strip the PKCS#7
padding in `final` (failure raises the bad-decrypt error,
`DecryptionIntegrityError` in the design's taxonomy), and convert the bytes to
a string with Node's lossy UTF-8 decoder. -/
def decryption (decipher : CipherContext) (target : Str) : Except CryptoError Str :=
  match hexDecode target with
  | none => .error .DecryptionIntegrityError
  | some ct =>
      if ct.length % 16 = 0 then
        match unpad16 ((cbcDecrypt decipher.keyBytes decipher.ivBytes (chunk16 ct)).flatten) with
        | some content => .ok (decodeUtf8 content)
        | none => .error .DecryptionIntegrityError
      else .error .DecryptionIntegrityError

/-- Code points of the log template `password.value: ` (source line 27). -/
def pwLogLabel : Str := [112, 97, 115, 115, 119, 111, 114, 100, 46, 118, 97, 108, 117, 101, 58, 32]

/-- Code points of the log template `salt.value: ` (source line 28). -/
def saltLogLabel : Str := [115, 97, 108, 116, 46, 118, 97, 108, 117, 101, 58, 32]

/-- Code points of the log template `iv.value: ` (source line 29). -/
def ivLogLabel : Str := [105, 118, 46, 118, 97, 108, 117, 101, 58, 32]

/-- Code points of the log template `commonKey: ` (source line 32). -/
def keyLogLabel : Str := [99, 111, 109, 109, 111, 110, 75, 101, 121, 58, 32]

/-- Code points of the log template (encrypted data, source line 40). -/
def encLogLabel : Str := [26263, 21495, 21270, 12375, 12383, 12487, 12540, 12479, 58, 32]

/-- Code points of the log template (decrypted data, source line 41). -/
def decLogLabel : Str := [35079, 21512, 21270, 12375, 12383, 12487, 12540, 12479, 58, 32]

/-- Source: `main(target)`.  The three `crypto.randomBytes(16)` outcomes are
passed as `r1`, `r2`, `r3` and `crypto.scryptSync` as `scryptSync`; any failure
of a step propagates unmodified.  The first component of the result collects
the `console.log` output emitted so far (lines 27-29, 32, 40, 41 of the
source), the second is the returned `[encryptionedData, decryptionedData]`. -/
def main (r1 r2 r3 : Except CryptoError (List Nat))
    (scryptSync : Str → Str → Nat → Except CryptoError (List Nat))
    (target : Str) : List Str × Except CryptoError (List Str) :=
  match r1 with
  | .error e => ([], .error e)
  | .ok rb1 =>
  match r2 with
  | .error e => ([], .error e)
  | .ok rb2 =>
  match r3 with
  | .error e => ([], .error e)
  | .ok rb3 =>
  let password : Password := ⟨createRandomBytes 16 rb1⟩
  let salt : Salt := ⟨createRandomBytes 16 rb2⟩
  let iv : InitializationVector := ⟨createRandomBytes 16 rb3⟩
  let log3 := [pwLogLabel ++ password.value, saltLogLabel ++ salt.value,
    ivLogLabel ++ iv.value]
  match createCommonKey scryptSync password salt with
  | .error e => (log3, .error e)
  | .ok commonKey =>
  let log4 := log3 ++ [keyLogLabel ++ commonKey.value]
  match createCipher commonKey iv with
  | .error e => (log4, .error e)
  | .ok cipher =>
  let encryptionedData := encryption cipher target
  match createDecipher commonKey iv with
  | .error e => (log4, .error e)
  | .ok decipher =>
  match decryption decipher encryptionedData with
  | .error e => (log4, .error e)
  | .ok decryptionedData =>
  (log4 ++ [encLogLabel ++ encryptionedData, decLogLabel ++ decryptionedData],
    .ok [encryptionedData, decryptionedData])

end CryptographProcessor

/-- Membership in the base64 output alphabet (including the `=` padding
character), stated on code points. -/
def isBase64Char (c : Nat) : Prop := c ∈ b64Alphabet

/-- A lowercase hexadecimal digit, as produced by Node's `hex` encoding. -/
def isHexChar (c : Nat) : Prop := (48 ≤ c ∧ c ≤ 57) ∨ (97 ≤ c ∧ c ≤ 102)

/-- Code points of the scenario plaintext `test` (source line 6 feeds this to
`main`). -/
def testStr : Str := [116, 101, 115, 116]

/-- Code points of the fixed scenario password `0123456789abcdef`. -/
def scenarioPassword : Str := [48, 49, 50, 51, 52, 53, 54, 55, 56, 57, 97, 98, 99, 100, 101, 102]

/-- Code points of the fixed scenario salt `fedcba9876543210`. -/
def scenarioSalt : Str := [102, 101, 100, 99, 98, 97, 57, 56, 55, 54, 53, 52, 51, 50, 49, 48]

instance (c : Nat) : Decidable (ValidScalar c) := by
  unfold ValidScalar
  infer_instance

instance (s : List Nat) : Decidable (StrWF s) := by
  unfold StrWF
  infer_instance

instance (l : List Nat) : Decidable (KeyWF l) := by
  unfold KeyWF
  infer_instance

instance (l : List Nat) : Decidable (StateWF l) := by
  unfold StateWF
  infer_instance

theorem byte_case {P : Nat → Prop} (h : ∀ i : Fin 256, P i.val) :
    ∀ n, n < 256 → P n := fun n hn => h ⟨n, hn⟩

theorem xor_byte_lt {a b : Nat} (ha : a < 256) (hb : b < 256) : a ^^^ b < 256 :=
  Nat.xor_lt_two_pow (n := 8) ha hb

set_option maxRecDepth 10000 in
theorem xtime_lt (n : Nat) : xtime n < 256 := by
  have h : ∀ m, m < 256 → (if m < 128 then 2 * m else (2 * m) ^^^ 0x11b) < 256 :=
    byte_case (by decide)
  simpa [xtime] using h (n % 256) (Nat.mod_lt _ (by omega))

theorem two_mul_xor (x y : Nat) : 2 * (x ^^^ y) = 2 * x ^^^ 2 * y := by
  have h2 : ∀ z : Nat, 2 * z = z <<< 1 := by
    intro z; rw [Nat.shiftLeft_eq, Nat.mul_comm]
  rw [h2, h2, h2]
  apply Nat.eq_of_testBit_eq
  intro i
  simp only [Nat.testBit_shiftLeft, Nat.testBit_xor]
  by_cases hi : 1 ≤ i <;> simp [hi]

theorem xor_div_128 (x y : Nat) : (x ^^^ y) / 128 = x / 128 ^^^ y / 128 := by
  have hs : ∀ z : Nat, z / 128 = z >>> 7 := by
    intro z; rw [Nat.shiftRight_eq_div_pow]
  rw [hs, hs, hs]
  apply Nat.eq_of_testBit_eq
  intro i
  simp [Nat.testBit_shiftRight, Nat.testBit_xor]

theorem xor_left_comm (a b c : Nat) : a ^^^ (b ^^^ c) = b ^^^ (a ^^^ c) := by
  rw [← Nat.xor_assoc, Nat.xor_comm a b, Nat.xor_assoc]

theorem xtime_linear {a b : Nat} (ha : a < 256) (hb : b < 256) :
    xtime (a ^^^ b) = xtime a ^^^ xtime b := by
  have hx : a ^^^ b < 256 := xor_byte_lt ha hb
  have hda : a / 128 = 0 ∨ a / 128 = 1 := by omega
  have hdb : b / 128 = 0 ∨ b / 128 = 1 := by omega
  have hxd := xor_div_128 a b
  simp only [xtime, Nat.mod_eq_of_lt hx, Nat.mod_eq_of_lt ha, Nat.mod_eq_of_lt hb]
  rcases hda with h1 | h1 <;> rcases hdb with h2 | h2 <;> rw [h1, h2] at hxd
  · have ha' : a < 128 := by omega
    have hb' : b < 128 := by omega
    have hx' : a ^^^ b < 128 := by simp at hxd; omega
    simp [ha', hb', hx', two_mul_xor]
  · have ha' : a < 128 := by omega
    have hb' : ¬ b < 128 := by omega
    have hx' : ¬ (a ^^^ b) < 128 := by simp at hxd; omega
    simp only [if_pos ha', if_neg hb', if_neg hx', two_mul_xor]
    rw [Nat.xor_assoc]
  · have ha' : ¬ a < 128 := by omega
    have hb' : b < 128 := by omega
    have hx' : ¬ (a ^^^ b) < 128 := by simp at hxd; omega
    simp only [if_neg ha', if_pos hb', if_neg hx', two_mul_xor]
    simp [Nat.xor_assoc, Nat.xor_comm, xor_left_comm]
  · have ha' : ¬ a < 128 := by omega
    have hb' : ¬ b < 128 := by omega
    have hx' : (a ^^^ b) < 128 := by simp at hxd; omega
    simp only [if_neg ha', if_neg hb', if_pos hx', two_mul_xor]
    simp [Nat.xor_assoc, Nat.xor_comm, xor_left_comm, Nat.xor_cancel_left,
      Nat.xor_self, Nat.xor_zero]

theorem gmul2_lt (n : Nat) : gmul2 n < 256 := xtime_lt n

theorem gmul3_lt (n : Nat) : gmul3 n < 256 :=
  xor_byte_lt (xtime_lt n) (Nat.mod_lt _ (by omega))

theorem gmul9_lt (n : Nat) : gmul9 n < 256 :=
  xor_byte_lt (xtime_lt _) (Nat.mod_lt _ (by omega))

theorem gmul11_lt (n : Nat) : gmul11 n < 256 :=
  xor_byte_lt (xor_byte_lt (xtime_lt _) (xtime_lt _)) (Nat.mod_lt _ (by omega))

theorem gmul13_lt (n : Nat) : gmul13 n < 256 :=
  xor_byte_lt (xor_byte_lt (xtime_lt _) (xtime_lt _)) (Nat.mod_lt _ (by omega))

theorem gmul14_lt (n : Nat) : gmul14 n < 256 :=
  xor_byte_lt (xor_byte_lt (xtime_lt _) (xtime_lt _)) (xtime_lt _)

theorem xtime2_linear {a b : Nat} (ha : a < 256) (hb : b < 256) :
    xtime (xtime (a ^^^ b)) = xtime (xtime a) ^^^ xtime (xtime b) := by
  rw [xtime_linear ha hb, xtime_linear (xtime_lt a) (xtime_lt b)]

theorem xtime3_linear {a b : Nat} (ha : a < 256) (hb : b < 256) :
    xtime (xtime (xtime (a ^^^ b))) = xtime (xtime (xtime a)) ^^^ xtime (xtime (xtime b)) := by
  rw [xtime2_linear ha hb, xtime_linear (xtime_lt _) (xtime_lt _)]

theorem gmul9_linear {a b : Nat} (ha : a < 256) (hb : b < 256) :
    gmul9 (a ^^^ b) = gmul9 a ^^^ gmul9 b := by
  have hx := xor_byte_lt ha hb
  simp only [gmul9]
  rw [Nat.mod_eq_of_lt hx, Nat.mod_eq_of_lt ha, Nat.mod_eq_of_lt hb, xtime3_linear ha hb]
  simp [Nat.xor_assoc, Nat.xor_comm, xor_left_comm]

theorem gmul11_linear {a b : Nat} (ha : a < 256) (hb : b < 256) :
    gmul11 (a ^^^ b) = gmul11 a ^^^ gmul11 b := by
  have hx := xor_byte_lt ha hb
  simp only [gmul11]
  rw [Nat.mod_eq_of_lt hx, Nat.mod_eq_of_lt ha, Nat.mod_eq_of_lt hb, xtime3_linear ha hb,
    xtime_linear ha hb]
  simp [Nat.xor_assoc, Nat.xor_comm, xor_left_comm]

theorem gmul13_linear {a b : Nat} (ha : a < 256) (hb : b < 256) :
    gmul13 (a ^^^ b) = gmul13 a ^^^ gmul13 b := by
  have hx := xor_byte_lt ha hb
  simp only [gmul13]
  rw [Nat.mod_eq_of_lt hx, Nat.mod_eq_of_lt ha, Nat.mod_eq_of_lt hb, xtime3_linear ha hb,
    xtime2_linear ha hb]
  simp [Nat.xor_assoc, Nat.xor_comm, xor_left_comm]

theorem gmul14_linear {a b : Nat} (ha : a < 256) (hb : b < 256) :
    gmul14 (a ^^^ b) = gmul14 a ^^^ gmul14 b := by
  simp only [gmul14]
  rw [xtime3_linear ha hb, xtime2_linear ha hb, xtime_linear ha hb]
  simp [Nat.xor_assoc, Nat.xor_comm, xor_left_comm]

theorem coefKA : ∀ n, n < 256 →
    gmul14 (gmul2 n) ^^^ gmul11 n ^^^ gmul13 n ^^^ gmul9 (gmul3 n) = n := byte_case (by decide)

theorem coefKB : ∀ n, n < 256 →
    gmul14 (gmul3 n) ^^^ gmul11 (gmul2 n) ^^^ gmul13 n ^^^ gmul9 n = 0 := byte_case (by decide)

theorem coefKC : ∀ n, n < 256 →
    gmul14 n ^^^ gmul11 (gmul3 n) ^^^ gmul13 (gmul2 n) ^^^ gmul9 n = 0 := byte_case (by decide)

theorem coefKD : ∀ n, n < 256 →
    gmul14 n ^^^ gmul11 n ^^^ gmul13 (gmul3 n) ^^^ gmul9 (gmul2 n) = 0 := byte_case (by decide)

theorem coefKE : ∀ n, n < 256 →
    gmul9 (gmul2 n) ^^^ gmul14 n ^^^ gmul11 n ^^^ gmul13 (gmul3 n) = 0 := byte_case (by decide)

theorem coefKF : ∀ n, n < 256 →
    gmul9 (gmul3 n) ^^^ gmul14 (gmul2 n) ^^^ gmul11 n ^^^ gmul13 n = n := byte_case (by decide)

theorem coefKG : ∀ n, n < 256 →
    gmul9 n ^^^ gmul14 (gmul3 n) ^^^ gmul11 (gmul2 n) ^^^ gmul13 n = 0 := byte_case (by decide)

theorem coefKH : ∀ n, n < 256 →
    gmul9 n ^^^ gmul14 n ^^^ gmul11 (gmul3 n) ^^^ gmul13 (gmul2 n) = 0 := byte_case (by decide)

theorem coefKI : ∀ n, n < 256 →
    gmul13 (gmul2 n) ^^^ gmul9 n ^^^ gmul14 n ^^^ gmul11 (gmul3 n) = 0 := byte_case (by decide)

theorem coefKJ : ∀ n, n < 256 →
    gmul13 (gmul3 n) ^^^ gmul9 (gmul2 n) ^^^ gmul14 n ^^^ gmul11 n = 0 := byte_case (by decide)

theorem coefKK : ∀ n, n < 256 →
    gmul13 n ^^^ gmul9 (gmul3 n) ^^^ gmul14 (gmul2 n) ^^^ gmul11 n = n := byte_case (by decide)

theorem coefKL : ∀ n, n < 256 →
    gmul13 n ^^^ gmul9 n ^^^ gmul14 (gmul3 n) ^^^ gmul11 (gmul2 n) = 0 := byte_case (by decide)

theorem coefKM : ∀ n, n < 256 →
    gmul11 (gmul2 n) ^^^ gmul13 n ^^^ gmul9 n ^^^ gmul14 (gmul3 n) = 0 := byte_case (by decide)

theorem coefKN : ∀ n, n < 256 →
    gmul11 (gmul3 n) ^^^ gmul13 (gmul2 n) ^^^ gmul9 n ^^^ gmul14 n = 0 := byte_case (by decide)

theorem coefKO : ∀ n, n < 256 →
    gmul11 n ^^^ gmul13 (gmul3 n) ^^^ gmul9 (gmul2 n) ^^^ gmul14 n = 0 := byte_case (by decide)

theorem coefKP : ∀ n, n < 256 →
    gmul11 n ^^^ gmul13 n ^^^ gmul9 (gmul3 n) ^^^ gmul14 (gmul2 n) = n := byte_case (by decide)

theorem gmul9_lin4 : ∀ x y, x < 256 → y < 256 → gmul9 (x ^^^ y) = gmul9 x ^^^ gmul9 y :=
  fun _ _ hx hy => gmul9_linear hx hy

theorem gmul11_lin4 : ∀ x y, x < 256 → y < 256 → gmul11 (x ^^^ y) = gmul11 x ^^^ gmul11 y :=
  fun _ _ hx hy => gmul11_linear hx hy

theorem gmul13_lin4 : ∀ x y, x < 256 → y < 256 → gmul13 (x ^^^ y) = gmul13 x ^^^ gmul13 y :=
  fun _ _ hx hy => gmul13_linear hx hy

theorem gmul14_lin4 : ∀ x y, x < 256 → y < 256 → gmul14 (x ^^^ y) = gmul14 x ^^^ gmul14 y :=
  fun _ _ hx hy => gmul14_linear hx hy

theorem linear4 {g : Nat → Nat}
    (hg : ∀ x y, x < 256 → y < 256 → g (x ^^^ y) = g x ^^^ g y)
    {w x y z : Nat} (hw : w < 256) (hx : x < 256) (hy : y < 256) (hz : z < 256) :
    g (w ^^^ x ^^^ y ^^^ z) = g w ^^^ g x ^^^ g y ^^^ g z := by
  rw [hg _ _ (xor_byte_lt (xor_byte_lt hw hx) hy) hz, hg _ _ (xor_byte_lt hw hx) hy,
    hg _ _ hw hx]

theorem shuffle16 (x1 x2 x3 x4 x5 x6 x7 x8 x9 x10 x11 x12 x13 x14 x15 x16 : Nat) :
    (x1 ^^^ x2 ^^^ x3 ^^^ x4) ^^^ (x5 ^^^ x6 ^^^ x7 ^^^ x8) ^^^ (x9 ^^^ x10 ^^^ x11 ^^^ x12) ^^^
      (x13 ^^^ x14 ^^^ x15 ^^^ x16) =
    (x1 ^^^ x5 ^^^ x9 ^^^ x13) ^^^ (x2 ^^^ x6 ^^^ x10 ^^^ x14) ^^^ (x3 ^^^ x7 ^^^ x11 ^^^ x15) ^^^
      (x4 ^^^ x8 ^^^ x12 ^^^ x16) := by
  simp [Nat.xor_assoc, Nat.xor_comm, xor_left_comm]

theorem invMixRow0 {a b c d : Nat} (ha : a < 256) (hb : b < 256) (hc : c < 256) (hd : d < 256) :
    gmul14 (gmul2 a ^^^ gmul3 b ^^^ c ^^^ d) ^^^ gmul11 (a ^^^ gmul2 b ^^^ gmul3 c ^^^ d) ^^^
      gmul13 (a ^^^ b ^^^ gmul2 c ^^^ gmul3 d) ^^^ gmul9 (gmul3 a ^^^ b ^^^ c ^^^ gmul2 d) = a := by
  rw [linear4 gmul14_lin4 (gmul2_lt a) (gmul3_lt b) hc hd,
    linear4 gmul11_lin4 ha (gmul2_lt b) (gmul3_lt c) hd,
    linear4 gmul13_lin4 ha hb (gmul2_lt c) (gmul3_lt d),
    linear4 gmul9_lin4 (gmul3_lt a) hb hc (gmul2_lt d),
    shuffle16, coefKA a ha, coefKB b hb, coefKC c hc, coefKD d hd]
  simp

theorem invMixRow1 {a b c d : Nat} (ha : a < 256) (hb : b < 256) (hc : c < 256) (hd : d < 256) :
    gmul9 (gmul2 a ^^^ gmul3 b ^^^ c ^^^ d) ^^^ gmul14 (a ^^^ gmul2 b ^^^ gmul3 c ^^^ d) ^^^
      gmul11 (a ^^^ b ^^^ gmul2 c ^^^ gmul3 d) ^^^ gmul13 (gmul3 a ^^^ b ^^^ c ^^^ gmul2 d) = b := by
  rw [linear4 gmul9_lin4 (gmul2_lt a) (gmul3_lt b) hc hd,
    linear4 gmul14_lin4 ha (gmul2_lt b) (gmul3_lt c) hd,
    linear4 gmul11_lin4 ha hb (gmul2_lt c) (gmul3_lt d),
    linear4 gmul13_lin4 (gmul3_lt a) hb hc (gmul2_lt d),
    shuffle16, coefKE a ha, coefKF b hb, coefKG c hc, coefKH d hd]
  simp

theorem invMixRow2 {a b c d : Nat} (ha : a < 256) (hb : b < 256) (hc : c < 256) (hd : d < 256) :
    gmul13 (gmul2 a ^^^ gmul3 b ^^^ c ^^^ d) ^^^ gmul9 (a ^^^ gmul2 b ^^^ gmul3 c ^^^ d) ^^^
      gmul14 (a ^^^ b ^^^ gmul2 c ^^^ gmul3 d) ^^^ gmul11 (gmul3 a ^^^ b ^^^ c ^^^ gmul2 d) = c := by
  rw [linear4 gmul13_lin4 (gmul2_lt a) (gmul3_lt b) hc hd,
    linear4 gmul9_lin4 ha (gmul2_lt b) (gmul3_lt c) hd,
    linear4 gmul14_lin4 ha hb (gmul2_lt c) (gmul3_lt d),
    linear4 gmul11_lin4 (gmul3_lt a) hb hc (gmul2_lt d),
    shuffle16, coefKI a ha, coefKJ b hb, coefKK c hc, coefKL d hd]
  simp

theorem invMixRow3 {a b c d : Nat} (ha : a < 256) (hb : b < 256) (hc : c < 256) (hd : d < 256) :
    gmul11 (gmul2 a ^^^ gmul3 b ^^^ c ^^^ d) ^^^ gmul13 (a ^^^ gmul2 b ^^^ gmul3 c ^^^ d) ^^^
      gmul9 (a ^^^ b ^^^ gmul2 c ^^^ gmul3 d) ^^^ gmul14 (gmul3 a ^^^ b ^^^ c ^^^ gmul2 d) = d := by
  rw [linear4 gmul11_lin4 (gmul2_lt a) (gmul3_lt b) hc hd,
    linear4 gmul13_lin4 ha (gmul2_lt b) (gmul3_lt c) hd,
    linear4 gmul9_lin4 ha hb (gmul2_lt c) (gmul3_lt d),
    linear4 gmul14_lin4 (gmul3_lt a) hb hc (gmul2_lt d),
    shuffle16, coefKM a ha, coefKN b hb, coefKO c hc, coefKP d hd]
  simp

theorem sbox_lt (n : Nat) : sbox n < 256 :=
  Nat.lt_succ_of_le Nat.and_le_right

theorem invSbox_lt (n : Nat) : invSbox n < 256 :=
  Nat.lt_succ_of_le Nat.and_le_right

set_option maxRecDepth 100000 in
theorem invSbox_sbox : ∀ n, n < 256 → invSbox (sbox n) = n := byte_case (by decide)

theorem invSubBytes_subBytes (s : List Nat) (h : ∀ x ∈ s, x < 256) :
    invSubBytes (subBytes s) = s := by
  induction s with
  | nil => rfl
  | cons a t ih =>
      have ha : a < 256 := h a (List.mem_cons_self a t)
      have ht : ∀ x ∈ t, x < 256 := fun x hx => h x (List.mem_cons_of_mem a hx)
      simp only [subBytes, invSubBytes, List.map_cons, List.cons.injEq]
      exact ⟨invSbox_sbox a ha, by simpa [subBytes, invSubBytes] using ih ht⟩

theorem list16_expand {α : Type} (s : List α) (h : s.length = 16) :
    ∃ a0 a1 a2 a3 a4 a5 a6 a7 a8 a9 a10 a11 a12 a13 a14 a15,
      s = [a0, a1, a2, a3, a4, a5, a6, a7, a8, a9, a10, a11, a12, a13, a14, a15] := by
  rcases s with _|⟨a0, s⟩; · simp at h
  rcases s with _|⟨a1, s⟩; · simp at h
  rcases s with _|⟨a2, s⟩; · simp at h
  rcases s with _|⟨a3, s⟩; · simp at h
  rcases s with _|⟨a4, s⟩; · simp at h
  rcases s with _|⟨a5, s⟩; · simp at h
  rcases s with _|⟨a6, s⟩; · simp at h
  rcases s with _|⟨a7, s⟩; · simp at h
  rcases s with _|⟨a8, s⟩; · simp at h
  rcases s with _|⟨a9, s⟩; · simp at h
  rcases s with _|⟨a10, s⟩; · simp at h
  rcases s with _|⟨a11, s⟩; · simp at h
  rcases s with _|⟨a12, s⟩; · simp at h
  rcases s with _|⟨a13, s⟩; · simp at h
  rcases s with _|⟨a14, s⟩; · simp at h
  rcases s with _|⟨a15, s⟩; · simp at h
  rcases s with _|⟨a16, s⟩
  · exact ⟨a0, a1, a2, a3, a4, a5, a6, a7, a8, a9, a10, a11, a12, a13, a14, a15, rfl⟩
  · simp at h

theorem invShiftRows_shiftRows (s : List Nat) (h : s.length = 16) :
    invShiftRows (shiftRows s) = s := by
  obtain ⟨a0, a1, a2, a3, a4, a5, a6, a7, a8, a9, a10, a11, a12, a13, a14, a15, rfl⟩ :=
    list16_expand s h
  rfl

theorem invMixColumns_mixColumns (s : List Nat) (hlen : s.length = 16)
    (hwf : ∀ x ∈ s, x < 256) : invMixColumns (mixColumns s) = s := by
  obtain ⟨a0, a1, a2, a3, a4, a5, a6, a7, a8, a9, a10, a11, a12, a13, a14, a15, rfl⟩ :=
    list16_expand s hlen
  simp only [List.mem_cons, List.not_mem_nil, or_false, forall_eq_or_imp, forall_eq] at hwf
  obtain ⟨h0, h1, h2, h3, h4, h5, h6, h7, h8, h9, h10, h11, h12, h13, h14, h15⟩ := hwf
  simp only [mixColumns, mixCol, List.cons_append, List.nil_append, invMixColumns, invMixCol]
  rw [invMixRow0 h0 h1 h2 h3, invMixRow1 h0 h1 h2 h3, invMixRow2 h0 h1 h2 h3,
    invMixRow3 h0 h1 h2 h3, invMixRow0 h4 h5 h6 h7, invMixRow1 h4 h5 h6 h7,
    invMixRow2 h4 h5 h6 h7, invMixRow3 h4 h5 h6 h7, invMixRow0 h8 h9 h10 h11,
    invMixRow1 h8 h9 h10 h11, invMixRow2 h8 h9 h10 h11, invMixRow3 h8 h9 h10 h11,
    invMixRow0 h12 h13 h14 h15, invMixRow1 h12 h13 h14 h15, invMixRow2 h12 h13 h14 h15,
    invMixRow3 h12 h13 h14 h15]

theorem xorW_length (a b : List Nat) : (xorW a b).length = min a.length b.length :=
  List.length_zipWith _ _ _

theorem xorW_lt {a b : List Nat} (ha : ∀ x ∈ a, x < 256) (hb : ∀ x ∈ b, x < 256) :
    ∀ x ∈ xorW a b, x < 256 := by
  induction a generalizing b with
  | nil => simp [xorW]
  | cons p t ih =>
      cases b with
      | nil => simp [xorW]
      | cons q u =>
          intro x hx
          simp only [xorW, List.zipWith_cons_cons, List.mem_cons] at hx
          rcases hx with rfl | hx
          · exact xor_byte_lt (ha p (by simp)) (hb q (by simp))
          · exact ih (fun y hy => ha y (by simp [hy])) (fun y hy => hb y (by simp [hy])) x hx

theorem xorW_cancel {a b : List Nat} (h : a.length = b.length) : xorW (xorW a b) b = a := by
  induction a generalizing b with
  | nil => simp [xorW]
  | cons p t ih =>
      cases b with
      | nil => simp at h
      | cons q u =>
          simp only [xorW, List.zipWith_cons_cons, List.cons.injEq]
          exact ⟨Nat.xor_cancel_right q p, ih (by simpa using h)⟩

theorem xorW_cancel_left {a b : List Nat} (h : a.length = b.length) : xorW a (xorW a b) = b := by
  induction a generalizing b with
  | nil => cases b with
      | nil => rfl
      | cons q u => simp at h
  | cons p t ih =>
      cases b with
      | nil => simp at h
      | cons q u =>
          simp only [xorW, List.zipWith_cons_cons, List.cons.injEq]
          exact ⟨Nat.xor_cancel_left p q, ih (by simpa using h)⟩

theorem rconv_lt (j : Nat) : rconv j < 256 := by
  unfold rconv
  rcases Nat.lt_or_ge (j - 1) 7 with h | h
  · interval_cases h' : j - 1 <;> simp
  · rw [List.getD_eq_default]
    · omega
    · simpa using h

theorem subWord_wf {w : List Nat} (h : wordWF w) : wordWF (subWord w) := by
  refine ⟨by simp [subWord, h.1], ?_⟩
  intro x hx
  simp only [subWord, List.mem_map] at hx
  obtain ⟨y, _, rfl⟩ := hx
  exact sbox_lt y

theorem rotWord_wf {w : List Nat} (h : wordWF w) : wordWF (rotWord w) := by
  obtain ⟨hl, hb⟩ := h
  rcases w with _ | ⟨a, _ | ⟨b, _ | ⟨c, _ | ⟨d, _ | ⟨e, t⟩⟩⟩⟩⟩ <;>
    simp_all [rotWord, wordWF]

theorem xorW_wf {a b : List Nat} (ha : wordWF a) (hb : wordWF b) : wordWF (xorW a b) :=
  ⟨by simp [xorW_length, ha.1, hb.1], xorW_lt ha.2 hb.2⟩

theorem getD_word_mem {l : List (List Nat)} {i : Nat} (h : i < l.length) :
    l.getD i [] ∈ l := by
  rw [List.getD_eq_getElem?_getD, List.getElem?_eq_getElem h]
  exact List.getElem_mem h

theorem chunk4_wf : ∀ l : List Nat, l.length % 4 = 0 → (∀ x ∈ l, x < 256) →
    (∀ w ∈ chunk4 l, wordWF w) ∧ (chunk4 l).length = l.length / 4 := by
  intro l
  induction l using chunk4.induct with
  | case1 => intro _ _; simp [chunk4]
  | case2 a => intro h _; simp at h
  | case3 a b => intro h _; simp at h
  | case4 a b c => intro h _; simp at h
  | case5 a b c d rest ih =>
      intro hmod hb
      have hmod' : rest.length % 4 = 0 := by simp at hmod; omega
      have hb' : ∀ x ∈ rest, x < 256 := fun x hx => hb x (by simp [hx])
      obtain ⟨ihw, ihl⟩ := ih hmod' hb'
      constructor
      · intro w hw
        simp only [chunk4, List.mem_cons] at hw
        rcases hw with rfl | hw
        · refine ⟨rfl, ?_⟩
          intro x hx
          simp only [List.mem_cons, List.not_mem_nil, or_false] at hx
          rcases hx with rfl | rfl | rfl | rfl <;> exact hb _ (by simp)
        · exact ihw w hw
      · simp only [chunk4, List.length_cons, ihl, List.length_cons]
        omega

theorem expandFrom_wf : ∀ (fuel : Nat) (ws : List (List Nat)), 8 ≤ ws.length →
    (∀ w ∈ ws, wordWF w) →
    (expandFrom ws fuel).length = ws.length + fuel ∧ ∀ w ∈ expandFrom ws fuel, wordWF w := by
  intro fuel
  induction fuel with
  | zero => intro ws _ hw; exact ⟨rfl, hw⟩
  | succ n ih =>
      intro ws hlen hw
      have hprev : wordWF (ws.getD (ws.length - 1) []) :=
        hw _ (getD_word_mem (by omega))
      have h8 : wordWF (ws.getD (ws.length - 8) []) :=
        hw _ (getD_word_mem (by omega))
      have hrcon : wordWF [rconv (ws.length / 8), 0, 0, 0] := by
        refine ⟨rfl, ?_⟩
        intro x hx
        simp only [List.mem_cons, List.not_mem_nil, or_false] at hx
        rcases hx with rfl | rfl | rfl | rfl
        · exact rconv_lt _
        all_goals omega
      have htemp : wordWF (if ws.length % 8 == 0 then
          xorW (subWord (rotWord (ws.getD (ws.length - 1) []))) [rconv (ws.length / 8), 0, 0, 0]
        else if ws.length % 8 == 4 then subWord (ws.getD (ws.length - 1) [])
        else ws.getD (ws.length - 1) []) := by
        split
        · exact xorW_wf (subWord_wf (rotWord_wf hprev)) hrcon
        · split
          · exact subWord_wf hprev
          · exact hprev
      have hnew : wordWF (xorW (ws.getD (ws.length - 8) []) _) := xorW_wf h8 htemp
      have hstep := ih (ws ++ [xorW (ws.getD (ws.length - 8) []) _])
        (by simp; omega)
        (by
          intro w hw'
          rcases List.mem_append.mp hw' with h | h
          · exact hw w h
          · simp only [List.mem_cons, List.not_mem_nil, or_false] at h
            exact h ▸ hnew)
      refine ⟨?_, ?_⟩
      · show (expandFrom _ (n + 1)).length = _
        rw [expandFrom]
        simp only [] at hstep ⊢
        rw [hstep.1]
        simp
        omega
      · show ∀ w ∈ expandFrom _ (n + 1), wordWF w
        rw [expandFrom]
        exact hstep.2

theorem keyWords_wf {key : List Nat} (hk : KeyWF key) :
    (keyWords key).length = 60 ∧ ∀ w ∈ keyWords key, wordWF w := by
  obtain ⟨hc, hl⟩ := chunk4_wf key (by rw [hk.1]) hk.2
  have h8 : (chunk4 key).length = 8 := by rw [hl, hk.1]
  obtain ⟨he1, he2⟩ := expandFrom_wf 52 (chunk4 key) (by omega) hc
  exact ⟨by rw [keyWords, he1, h8], he2⟩

theorem flatten_words_wf {ws : List (List Nat)} (h : ∀ w ∈ ws, wordWF w) :
    ws.flatten.length = 4 * ws.length ∧ ∀ x ∈ ws.flatten, x < 256 := by
  induction ws with
  | nil => simp
  | cons w t ih =>
      have hw := h w (by simp)
      have ht := ih (fun v hv => h v (by simp [hv]))
      constructor
      · simp [hw.1, ht.1]; omega
      · intro x hx
        rw [List.flatten_cons] at hx
        rcases List.mem_append.mp hx with h' | h'
        · exact hw.2 x h'
        · exact ht.2 x h'

theorem roundKey_wf {key : List Nat} (hk : KeyWF key) {i : Nat} (hi : i ≤ 14) :
    StateWF (roundKey key i) := by
  obtain ⟨hwlen, hww⟩ := keyWords_wf hk
  have hmem : ∀ w ∈ ((keyWords key).drop (4 * i)).take 4, wordWF w := fun w hw =>
    hww w (List.drop_subset _ _ (List.take_subset _ _ hw))
  have htl : (((keyWords key).drop (4 * i)).take 4).length = 4 := by
    simp [hwlen]; omega
  obtain ⟨hfl, hfb⟩ := flatten_words_wf hmem
  exact ⟨by rw [roundKey, hfl, htl], hfb⟩

theorem subBytes_wf {s : List Nat} (h : StateWF s) : StateWF (subBytes s) := by
  refine ⟨by simp [subBytes, h.1], ?_⟩
  intro x hx
  obtain ⟨y, _, rfl⟩ := List.mem_map.mp hx
  exact sbox_lt y

theorem shiftRows_wf {s : List Nat} (h : StateWF s) : StateWF (shiftRows s) := by
  obtain ⟨a0, a1, a2, a3, a4, a5, a6, a7, a8, a9, a10, a11, a12, a13, a14, a15, rfl⟩ :=
    list16_expand s h.1
  have hb := h.2
  simp only [List.mem_cons, List.not_mem_nil, or_false, forall_eq_or_imp, forall_eq] at hb
  refine ⟨rfl, ?_⟩
  intro x hx
  simp only [shiftRows, List.mem_cons, List.not_mem_nil, or_false] at hx
  obtain ⟨h0, h1, h2, h3, h4, h5, h6, h7, h8, h9, h10, h11, h12, h13, h14, h15⟩ := hb
  rcases hx with rfl|rfl|rfl|rfl|rfl|rfl|rfl|rfl|rfl|rfl|rfl|rfl|rfl|rfl|rfl|rfl <;> assumption

theorem mixCol_wf {a b c d : Nat} (ha : a < 256) (hb : b < 256) (hc : c < 256) (hd : d < 256) :
    ∀ x ∈ mixCol a b c d, x < 256 := by
  intro x hx
  simp only [mixCol, List.mem_cons, List.not_mem_nil, or_false] at hx
  rcases hx with rfl | rfl | rfl | rfl
  · exact xor_byte_lt (xor_byte_lt (xor_byte_lt (gmul2_lt a) (gmul3_lt b)) hc) hd
  · exact xor_byte_lt (xor_byte_lt (xor_byte_lt ha (gmul2_lt b)) (gmul3_lt c)) hd
  · exact xor_byte_lt (xor_byte_lt (xor_byte_lt ha hb) (gmul2_lt c)) (gmul3_lt d)
  · exact xor_byte_lt (xor_byte_lt (xor_byte_lt (gmul3_lt a) hb) hc) (gmul2_lt d)

theorem mixColumns_wf {s : List Nat} (h : StateWF s) : StateWF (mixColumns s) := by
  obtain ⟨a0, a1, a2, a3, a4, a5, a6, a7, a8, a9, a10, a11, a12, a13, a14, a15, rfl⟩ :=
    list16_expand s h.1
  have hb := h.2
  simp only [List.mem_cons, List.not_mem_nil, or_false, forall_eq_or_imp, forall_eq] at hb
  obtain ⟨h0, h1, h2, h3, h4, h5, h6, h7, h8, h9, h10, h11, h12, h13, h14, h15⟩ := hb
  constructor
  · simp [mixColumns, mixCol]
  · intro x hx
    simp only [mixColumns] at hx
    rcases List.mem_append.mp hx with hx' | hx'
    · rcases List.mem_append.mp hx' with hx'' | hx''
      · rcases List.mem_append.mp hx'' with hx3 | hx3
        · exact mixCol_wf h0 h1 h2 h3 x hx3
        · exact mixCol_wf h4 h5 h6 h7 x hx3
      · exact mixCol_wf h8 h9 h10 h11 x hx''
    · exact mixCol_wf h12 h13 h14 h15 x hx'

theorem xorW_state_wf {a b : List Nat} (ha : StateWF a) (hb : StateWF b) :
    StateWF (xorW a b) :=
  ⟨by simp [xorW_length, ha.1, hb.1], xorW_lt ha.2 hb.2⟩

theorem roundF_wf {s k : List Nat} (hs : StateWF s) (hk : StateWF k) : StateWF (roundF s k) :=
  xorW_state_wf (mixColumns_wf (shiftRows_wf (subBytes_wf hs))) hk

theorem foldl_roundF_wf : ∀ (ks : List (List Nat)) (s : List Nat),
    (∀ k ∈ ks, StateWF k) → StateWF s → StateWF (List.foldl roundF s ks) := by
  intro ks
  induction ks with
  | nil => intro s _ hs; exact hs
  | cons k t ih =>
      intro s hks hs
      simp only [List.foldl_cons]
      exact ih _ (fun v hv => hks v (by simp [hv])) (roundF_wf hs (hks k (by simp)))

theorem invRoundF_roundF {s k : List Nat} (hs : StateWF s) (hk : StateWF k) :
    invRoundF (roundF s k) k = s := by
  have hm : StateWF (mixColumns (shiftRows (subBytes s))) :=
    mixColumns_wf (shiftRows_wf (subBytes_wf hs))
  unfold invRoundF roundF
  rw [xorW_cancel (by rw [hm.1, hk.1]),
    invMixColumns_mixColumns _ (shiftRows_wf (subBytes_wf hs)).1 (shiftRows_wf (subBytes_wf hs)).2,
    invShiftRows_shiftRows _ (subBytes_wf hs).1,
    invSubBytes_subBytes _ hs.2]

theorem foldl_roundF_inv : ∀ (ks : List (List Nat)) (s : List Nat),
    (∀ k ∈ ks, StateWF k) → StateWF s →
    List.foldl invRoundF (List.foldl roundF s ks) ks.reverse = s := by
  intro ks
  induction ks with
  | nil => intro s _ _; rfl
  | cons k t ih =>
      intro s hks hs
      simp only [List.foldl_cons, List.reverse_cons]
      rw [List.foldl_append,
        ih (roundF s k) (fun v hv => hks v (by simp [hv]))
          (roundF_wf hs (hks k (by simp)))]
      simp only [List.foldl_cons, List.foldl_nil]
      exact invRoundF_roundF hs (hks k (by simp))

theorem midKeys_wf {key : List Nat} (hk : KeyWF key) : ∀ k ∈ midKeys key, StateWF k := by
  intro k hkmem
  simp only [midKeys, List.mem_map, List.mem_range] at hkmem
  obtain ⟨i, hi, rfl⟩ := hkmem
  exact roundKey_wf hk (by omega)

theorem aesEncBlock_wf {key b : List Nat} (hk : KeyWF key) (hb : StateWF b) :
    StateWF (aesEncBlock key b) := by
  have h0 : StateWF (xorW b (roundKey key 0)) :=
    xorW_state_wf hb (roundKey_wf hk (by omega))
  have hmid := foldl_roundF_wf (midKeys key) _ (midKeys_wf hk) h0
  exact xorW_state_wf (shiftRows_wf (subBytes_wf hmid)) (roundKey_wf hk (by omega))

theorem aesDecBlock_aesEncBlock {key b : List Nat} (hk : KeyWF key) (hb : StateWF b) :
    aesDecBlock key (aesEncBlock key b) = b := by
  have h0 : StateWF (xorW b (roundKey key 0)) :=
    xorW_state_wf hb (roundKey_wf hk (by omega))
  have hmid := foldl_roundF_wf (midKeys key) _ (midKeys_wf hk) h0
  have hss : StateWF (shiftRows (subBytes (List.foldl roundF (xorW b (roundKey key 0))
      (midKeys key)))) := shiftRows_wf (subBytes_wf hmid)
  unfold aesDecBlock aesEncBlock
  rw [xorW_cancel (by rw [hss.1, (roundKey_wf hk (by omega : (14:Nat) ≤ 14)).1]),
    invShiftRows_shiftRows _ (subBytes_wf hmid).1,
    invSubBytes_subBytes _ hmid.2,
    foldl_roundF_inv (midKeys key) _ (midKeys_wf hk) h0,
    xorW_cancel (by rw [hb.1, (roundKey_wf hk (by omega : (0:Nat) ≤ 14)).1])]

theorem flatten_chunk16 : ∀ l : List Nat, (chunk16 l).flatten = l := by
  intro l
  induction l using chunk16.induct <;> simp_all [chunk16]

theorem chunk16_blocks : ∀ bs : List (List Nat), (∀ b ∈ bs, b.length = 16) →
    chunk16 bs.flatten = bs := by
  intro bs
  induction bs with
  | nil => intro _; rfl
  | cons b t ih =>
      intro h
      obtain ⟨a0, a1, a2, a3, a4, a5, a6, a7, a8, a9, a10, a11, a12, a13, a14, a15, rfl⟩ :=
        list16_expand b (h b (by simp))
      rw [List.flatten_cons]
      simp only [List.cons_append, List.nil_append]
      rw [show ∀ r : List Nat, chunk16 (a0 :: a1 :: a2 :: a3 :: a4 :: a5 :: a6 :: a7 :: a8 ::
        a9 :: a10 :: a11 :: a12 :: a13 :: a14 :: a15 :: r) =
        [a0, a1, a2, a3, a4, a5, a6, a7, a8, a9, a10, a11, a12, a13, a14, a15] :: chunk16 r
        from fun r => rfl]
      rw [ih (fun v hv => h v (by simp [hv]))]

theorem chunk16_wf : ∀ (n : Nat) (l : List Nat), l.length = n → l.length % 16 = 0 →
    (∀ x ∈ l, x < 256) → ∀ b ∈ chunk16 l, StateWF b := by
  intro n
  induction n using Nat.strong_induction_on with
  | _ n ih =>
      intro l hln hm hb
      rcases Nat.eq_zero_or_pos l.length with hz | hpos
      · rw [List.length_eq_zero.mp hz]
        intro b hmem
        simp [chunk16] at hmem
      · have h16 : 16 ≤ l.length := by omega
        obtain ⟨a0, a1, a2, a3, a4, a5, a6, a7, a8, a9, a10, a11, a12, a13, a14, a15, he⟩ :=
          list16_expand (l.take 16) (by simp [List.length_take]; omega)
        obtain ⟨rest, hrest⟩ : ∃ rest, l = l.take 16 ++ rest := ⟨l.drop 16, by simp⟩
        rw [hrest, he]
        intro b hmem
        simp only [List.cons_append, List.nil_append] at hmem
        rw [show chunk16 (a0 :: a1 :: a2 :: a3 :: a4 :: a5 :: a6 :: a7 :: a8 :: a9 :: a10 ::
          a11 :: a12 :: a13 :: a14 :: a15 :: rest) =
          [a0, a1, a2, a3, a4, a5, a6, a7, a8, a9, a10, a11, a12, a13, a14, a15] :: chunk16 rest
          from rfl] at hmem
        have hbl : ∀ x ∈ l, x < 256 := hb
        rw [hrest, he] at hbl
        simp only [List.cons_append, List.nil_append, List.mem_cons] at hbl
        rcases List.mem_cons.mp hmem with rfl | hmem'
        · refine ⟨rfl, ?_⟩
          intro x hx
          simp only [List.mem_cons, List.not_mem_nil, or_false] at hx
          apply hbl
          tauto
        · have hrlen : rest.length = n - 16 := by
            have := congrArg List.length hrest
            simp [List.length_take] at this
            omega
          exact ih (n - 16) (by omega) rest hrlen
            (by
              have := congrArg List.length hrest
              simp [List.length_take] at this
              omega)
            (fun x hx => hbl x (by tauto)) b hmem'

theorem cbcEncrypt_wf {key : List Nat} (hk : KeyWF key) :
    ∀ (bs : List (List Nat)) (iv : List Nat), StateWF iv → (∀ b ∈ bs, StateWF b) →
    ∀ c ∈ cbcEncrypt key iv bs, StateWF c := by
  intro bs
  induction bs with
  | nil => intro iv _ _ c hc; simp [cbcEncrypt] at hc
  | cons b t ih =>
      intro iv hiv hbs c hc
      simp only [cbcEncrypt, List.mem_cons] at hc
      have hcb : StateWF (aesEncBlock key (xorW iv b)) :=
        aesEncBlock_wf hk (xorW_state_wf hiv (hbs b (by simp)))
      cases hc with
      | inl h => exact h ▸ hcb
      | inr h => exact ih _ hcb (fun v hv => hbs v (by simp [hv])) c h

theorem cbcDecrypt_cbcEncrypt {key : List Nat} (hk : KeyWF key) :
    ∀ (bs : List (List Nat)) (iv : List Nat), StateWF iv → (∀ b ∈ bs, StateWF b) →
    cbcDecrypt key iv (cbcEncrypt key iv bs) = bs := by
  intro bs
  induction bs with
  | nil => intro iv _ _; rfl
  | cons b t ih =>
      intro iv hiv hbs
      have hb : StateWF b := hbs b (by simp)
      have hxb : StateWF (xorW iv b) := xorW_state_wf hiv hb
      have hcb : StateWF (aesEncBlock key (xorW iv b)) := aesEncBlock_wf hk hxb
      simp only [cbcEncrypt, cbcDecrypt]
      rw [aesDecBlock_aesEncBlock hk hxb]
      rw [xorW_cancel_left (by rw [hiv.1, hb.1])]
      rw [ih _ hcb (fun v hv => hbs v (by simp [hv]))]

theorem hexDigitVal_hexDigit {n : Nat} (h : n < 16) : hexDigitVal (hexDigit n) = some n := by
  rcases Nat.lt_or_ge n 10 with h10 | h10
  · have hd : hexDigit n = 48 + n := by unfold hexDigit; rw [if_pos h10]
    unfold hexDigitVal
    rw [hd, if_pos (by omega)]
    simp only [Option.some.injEq]
    omega
  · have hd : hexDigit n = 87 + n := by unfold hexDigit; rw [if_neg (by omega)]
    unfold hexDigitVal
    rw [hd, if_neg (by omega), if_pos (by omega)]
    simp only [Option.some.injEq]
    omega

theorem hexDecode_hexEncode {l : List Nat} (hl : ∀ x ∈ l, x < 256) :
    hexDecode (hexEncode l) = some l := by
  induction l with
  | nil => rfl
  | cons b t ih =>
      have hb : b < 256 := hl b (by simp)
      rw [hexEncode, List.map_cons, List.flatten_cons]
      simp only [List.cons_append, List.nil_append]
      rw [hexDecode]
      rw [hexDigitVal_hexDigit (by omega), hexDigitVal_hexDigit (by omega)]
      rw [show (t.map (fun b => [hexDigit (b / 16), hexDigit (b % 16)])).flatten = hexEncode t
        from rfl]
      rw [ih (fun x hx => hl x (by simp [hx]))]
      show some ((16 * (b / 16) + b % 16) :: t) = some (b :: t)
      rw [Nat.div_add_mod]

theorem hexEncode_length (l : List Nat) : (hexEncode l).length = 2 * l.length := by
  induction l with
  | nil => rfl
  | cons b t ih =>
      rw [hexEncode, List.map_cons, List.flatten_cons]
      simp only [List.length_append, List.length_cons, List.length_nil]
      rw [show (t.map (fun b => [hexDigit (b / 16), hexDigit (b % 16)])).flatten = hexEncode t
        from rfl, ih]
      omega

theorem pad16_length (l : List Nat) : (pad16 l).length = 16 * (l.length / 16 + 1) := by
  simp only [pad16, List.length_append, List.length_replicate]
  omega

theorem pad16_mod (l : List Nat) : (pad16 l).length % 16 = 0 := by
  rw [pad16_length]
  omega

theorem pad16_lt {l : List Nat} (hl : ∀ x ∈ l, x < 256) : ∀ x ∈ pad16 l, x < 256 := by
  intro x hx
  rcases List.mem_append.mp hx with h | h
  · exact hl x h
  · have := List.eq_of_mem_replicate h
    omega

theorem unpad16_pad16 (l : List Nat) : unpad16 (pad16 l) = some l := by
  have hk1 : 1 ≤ 16 - l.length % 16 := by omega
  have hsplit : List.replicate (16 - l.length % 16) (16 - l.length % 16) =
      List.replicate (16 - l.length % 16 - 1) (16 - l.length % 16) ++
        [16 - l.length % 16] := by
    have hm : 16 - l.length % 16 = (16 - l.length % 16 - 1) + 1 := by omega
    have h3 := List.replicate_succ' (16 - l.length % 16 - 1) (16 - l.length % 16)
    rw [← hm] at h3
    exact h3
  have hlast : (pad16 l).getLast? = some (16 - l.length % 16) := by
    rw [pad16, hsplit, ← List.append_assoc, List.getLast?_concat]
  have hlen : (pad16 l).length = l.length + (16 - l.length % 16) := by
    simp [pad16]
  have hdrop : (pad16 l).drop ((pad16 l).length - (16 - l.length % 16)) =
      List.replicate (16 - l.length % 16) (16 - l.length % 16) := by
    rw [hlen, pad16, show l.length + (16 - l.length % 16) - (16 - l.length % 16) = l.length
      by omega, List.drop_left]
  have htake : (pad16 l).take ((pad16 l).length - (16 - l.length % 16)) = l := by
    rw [hlen, pad16, show l.length + (16 - l.length % 16) - (16 - l.length % 16) = l.length
      by omega, List.take_left]
  unfold unpad16
  simp only [hlast, Option.getD_some]
  rw [if_pos]
  · rw [htake]
  · refine ⟨hk1, by omega, by omega, ?_⟩
    rw [hdrop]
    simp only [List.all_eq_true]
    intro x hx
    have := List.eq_of_mem_replicate hx
    simp [this]

theorem b64Char_lt (n : Nat) : b64Char n < 128 := by
  have h : n % 64 < 64 := Nat.mod_lt _ (by omega)
  show (if n % 64 < 26 then 65 + n % 64 else if n % 64 < 52 then 71 + n % 64
    else if n % 64 < 62 then n % 64 - 4 else if n % 64 = 62 then 43 else 47) < 128
  repeat' split
  all_goals omega

set_option maxRecDepth 10000 in
theorem b64Char_mem_alphabet (n : Nat) : b64Char n ∈ b64Alphabet := by
  have h : ∀ i : Fin 64, b64Char i.val ∈ b64Alphabet := by decide
  have hmod : b64Char (n % 64) = b64Char n := by
    unfold b64Char
    rw [Nat.mod_mod_of_dvd]
    exact Dvd.intro 1 rfl
  rw [← hmod]
  exact h ⟨n % 64, Nat.mod_lt _ (by omega)⟩

theorem base64Encode_length : ∀ l : List Nat,
    (base64Encode l).length = 4 * ((l.length + 2) / 3) := by
  intro l
  induction l using base64Encode.induct with
  | case1 => rfl
  | case2 a => simp [base64Encode]
  | case3 a b => simp [base64Encode]
  | case4 a b c rest ih =>
      simp only [base64Encode, List.length_cons, ih]
      omega

theorem base64Encode_mem : ∀ (l : List Nat) (x : Nat), x ∈ base64Encode l → x ∈ b64Alphabet := by
  intro l
  induction l using base64Encode.induct with
  | case1 => intro x hx; simp [base64Encode] at hx
  | case2 a =>
      intro x hx
      simp only [base64Encode, List.mem_cons, List.not_mem_nil, or_false] at hx
      rcases hx with rfl | rfl | rfl | rfl
      · exact b64Char_mem_alphabet _
      · exact b64Char_mem_alphabet _
      · decide
      · decide
  | case3 a b =>
      intro x hx
      simp only [base64Encode, List.mem_cons, List.not_mem_nil, or_false] at hx
      rcases hx with rfl | rfl | rfl | rfl
      · exact b64Char_mem_alphabet _
      · exact b64Char_mem_alphabet _
      · exact b64Char_mem_alphabet _
      · decide
  | case4 a b c rest ih =>
      intro x hx
      simp only [base64Encode, List.mem_cons] at hx
      rcases hx with rfl | rfl | rfl | rfl | hx
      · exact b64Char_mem_alphabet _
      · exact b64Char_mem_alphabet _
      · exact b64Char_mem_alphabet _
      · exact b64Char_mem_alphabet _
      · exact ih x hx

theorem b64Alphabet_lt : ∀ x ∈ b64Alphabet, x < 128 := by decide

theorem decodeUtf8_cons (b : Nat) (rest : List Nat) :
    decodeUtf8 (b :: rest) = (decodeOne b rest).1 :: decodeUtf8 (rest.drop (decodeOne b rest).2) := by
  rw [decodeUtf8]

theorem decodeOne_ascii {c : Nat} (h : c < 0x80) (rest : List Nat) :
    decodeOne c rest = (c, 0) := by
  unfold decodeOne
  rw [if_pos h]

theorem decodeOne_two {c : Nat} (h1 : 0x80 ≤ c) (h2 : c < 0x800) (bs : List Nat) :
    decodeOne (0xC0 + c / 64) ((0x80 + c % 64) :: bs) = (c, 1) := by
  unfold decodeOne
  rw [if_neg (by omega), if_pos (by omega)]
  simp only []
  rw [if_pos (by omega)]
  have e1 : 0xC0 + c / 64 - 0xC0 = c / 64 := by omega
  have e2 : 0x80 + c % 64 - 0x80 = c % 64 := by omega
  rw [e1, e2]
  simp only [Prod.mk.injEq, and_true]
  omega

theorem decodeOne_three {c : Nat} (h1 : 0x800 ≤ c) (h2 : c < 0x10000)
    (hs : c < 0xD800 ∨ 0xE000 ≤ c) (bs : List Nat) :
    decodeOne (0xE0 + c / 4096) ((0x80 + c / 64 % 64) :: (0x80 + c % 64) :: bs) = (c, 2) := by
  unfold decodeOne
  rw [if_neg (by omega), if_neg (by omega), if_pos (by omega)]
  simp only []
  rw [if_pos (⟨by omega, by omega, fun he => by omega, fun he => by omega⟩ :
    (0x80 ≤ 0x80 + c / 64 % 64 ∧ 0x80 + c / 64 % 64 ≤ 0xBF) ∧
      (0x80 ≤ 0x80 + c % 64 ∧ 0x80 + c % 64 ≤ 0xBF) ∧
      (0xE0 + c / 4096 = 0xE0 → 0xA0 ≤ 0x80 + c / 64 % 64) ∧
      (0xE0 + c / 4096 = 0xED → 0x80 + c / 64 % 64 < 0xA0))]
  have e1 : 0xE0 + c / 4096 - 0xE0 = c / 4096 := by omega
  have e2 : 0x80 + c / 64 % 64 - 0x80 = c / 64 % 64 := by omega
  have e3 : 0x80 + c % 64 - 0x80 = c % 64 := by omega
  rw [e1, e2, e3]
  simp only [Prod.mk.injEq, and_true]
  omega

theorem decodeOne_four {c : Nat} (h1 : 0x10000 ≤ c) (h2 : c < 0x110000) (bs : List Nat) :
    decodeOne (0xF0 + c / 262144)
      ((0x80 + c / 4096 % 64) :: (0x80 + c / 64 % 64) :: (0x80 + c % 64) :: bs) = (c, 3) := by
  unfold decodeOne
  rw [if_neg (by omega), if_neg (by omega), if_neg (by omega), if_pos (by omega)]
  simp only []
  rw [if_pos (⟨by omega, by omega, by omega, fun he => by omega, fun he => by omega⟩ :
    (0x80 ≤ 0x80 + c / 4096 % 64 ∧ 0x80 + c / 4096 % 64 ≤ 0xBF) ∧
      (0x80 ≤ 0x80 + c / 64 % 64 ∧ 0x80 + c / 64 % 64 ≤ 0xBF) ∧
      (0x80 ≤ 0x80 + c % 64 ∧ 0x80 + c % 64 ≤ 0xBF) ∧
      (0xF0 + c / 262144 = 0xF0 → 0x90 ≤ 0x80 + c / 4096 % 64) ∧
      (0xF0 + c / 262144 = 0xF4 → 0x80 + c / 4096 % 64 < 0x90))]
  have e1 : 0xF0 + c / 262144 - 0xF0 = c / 262144 := by omega
  have e2 : 0x80 + c / 4096 % 64 - 0x80 = c / 4096 % 64 := by omega
  have e3 : 0x80 + c / 64 % 64 - 0x80 = c / 64 % 64 := by omega
  have e4 : 0x80 + c % 64 - 0x80 = c % 64 := by omega
  rw [e1, e2, e3, e4]
  simp only [Prod.mk.injEq, and_true]
  omega

theorem decodeUtf8_encodeChar {c : Nat} (hc : ValidScalar c) (bs : List Nat) :
    decodeUtf8 (utf8EncodeChar c ++ bs) = c :: decodeUtf8 bs := by
  unfold utf8EncodeChar
  rcases Nat.lt_or_ge c 0x80 with h1 | h1
  · rw [if_pos h1]
    simp only [List.cons_append, List.nil_append]
    rw [decodeUtf8_cons, decodeOne_ascii h1]
    simp
  · rcases Nat.lt_or_ge c 0x800 with h2 | h2
    · rw [if_neg (by omega), if_pos h2]
      simp only [List.cons_append, List.nil_append]
      rw [decodeUtf8_cons, decodeOne_two h1 h2]
      simp
    · rcases Nat.lt_or_ge c 0x10000 with h3 | h3
      · rw [if_neg (by omega), if_neg (by omega), if_pos h3]
        simp only [List.cons_append, List.nil_append]
        have hs : c < 0xD800 ∨ 0xE000 ≤ c := by
          rcases hc with h | h
          · exact Or.inl h
          · exact Or.inr h.1
        rw [decodeUtf8_cons, decodeOne_three h2 h3 hs]
        simp
      · have h4 : c < 0x110000 := by
          rcases hc with h | h
          · omega
          · exact h.2
        rw [if_neg (by omega), if_neg (by omega), if_neg (by omega)]
        simp only [List.cons_append, List.nil_append]
        rw [decodeUtf8_cons, decodeOne_four h3 h4]
        simp

theorem decodeUtf8_encodeUtf8 {s : List Nat} (hs : StrWF s) :
    decodeUtf8 (encodeUtf8 s) = s := by
  induction s with
  | nil =>
      rw [show encodeUtf8 [] = ([] : List Nat) from rfl]
      rw [decodeUtf8]
  | cons c t ih =>
      have hc : ValidScalar c := hs c (by simp)
      have ht : StrWF t := fun x hx => hs x (by simp [hx])
      rw [encodeUtf8, List.map_cons, List.flatten_cons]
      rw [decodeUtf8_encodeChar hc, ← encodeUtf8, ih ht]

theorem encodeUtf8_nil : encodeUtf8 [] = [] := rfl

theorem utf8EncodeChar_lt {c : Nat} (hc : ValidScalar c) : ∀ x ∈ utf8EncodeChar c, x < 256 := by
  have h4 : c < 0x110000 := by
    rcases hc with h | h
    · omega
    · exact h.2
  intro x hx
  unfold utf8EncodeChar at hx
  rcases Nat.lt_or_ge c 0x80 with h1 | h1
  · rw [if_pos h1] at hx
    simp only [List.mem_cons, List.not_mem_nil, or_false] at hx
    omega
  · rcases Nat.lt_or_ge c 0x800 with h2 | h2
    · rw [if_neg (by omega), if_pos h2] at hx
      simp only [List.mem_cons, List.not_mem_nil, or_false] at hx
      rcases hx with rfl | rfl <;> omega
    · rcases Nat.lt_or_ge c 0x10000 with h3 | h3
      · rw [if_neg (by omega), if_neg (by omega), if_pos h3] at hx
        simp only [List.mem_cons, List.not_mem_nil, or_false] at hx
        rcases hx with rfl | rfl | rfl <;> omega
      · rw [if_neg (by omega), if_neg (by omega), if_neg (by omega)] at hx
        simp only [List.mem_cons, List.not_mem_nil, or_false] at hx
        rcases hx with rfl | rfl | rfl | rfl <;> omega

theorem encodeUtf8_lt {s : List Nat} (hs : StrWF s) : ∀ x ∈ encodeUtf8 s, x < 256 := by
  intro x hx
  rw [encodeUtf8] at hx
  obtain ⟨l, hl, hxl⟩ := List.mem_flatten.mp hx
  obtain ⟨c, hcs, rfl⟩ := List.mem_map.mp hl
  exact utf8EncodeChar_lt (hs c hcs) x hxl

theorem utf8EncodeChar_ascii {c : Nat} (h : c < 128) : utf8EncodeChar c = [c] := by
  unfold utf8EncodeChar
  rw [if_pos h]

theorem encodeUtf8_ascii_length {s : List Nat} (hs : ∀ c ∈ s, c < 128) :
    (encodeUtf8 s).length = s.length := by
  induction s with
  | nil => rfl
  | cons c t ih =>
      rw [encodeUtf8, List.map_cons, List.flatten_cons]
      rw [utf8EncodeChar_ascii (hs c (by simp))]
      simp only [List.length_append, List.length_cons, List.length_nil]
      rw [← encodeUtf8, ih (fun x hx => hs x (by simp [hx]))]
      omega

theorem flatten_blocks16 {bs : List (List Nat)} (h : ∀ b ∈ bs, b.length = 16) :
    bs.flatten.length = 16 * bs.length := by
  induction bs with
  | nil => rfl
  | cons b t ih =>
      rw [List.flatten_cons]
      simp only [List.length_append, List.length_cons]
      rw [h b (by simp), ih (fun v hv => h v (by simp [hv]))]
      omega

theorem flatten_blocks_lt {bs : List (List Nat)} (h : ∀ b ∈ bs, ∀ x ∈ b, x < 256) :
    ∀ x ∈ bs.flatten, x < 256 := by
  intro x hx
  obtain ⟨l, hl, hxl⟩ := List.mem_flatten.mp hx
  exact h l hl x hxl

theorem hexEncode_mem : ∀ l : List Nat, (∀ x ∈ l, x < 256) →
    ∀ x ∈ hexEncode l, isHexChar x := by
  intro l
  induction l with
  | nil => intro _ x hx; simp [hexEncode] at hx
  | cons b t ih =>
      intro hl x hx
      have hb : b < 256 := hl b (by simp)
      rw [hexEncode, List.map_cons, List.flatten_cons] at hx
      rcases List.mem_append.mp hx with h | h
      · simp only [List.mem_cons, List.not_mem_nil, or_false] at h
        have hdig : ∀ n : Nat, n < 16 → isHexChar (hexDigit n) := by
          intro n hn
          unfold hexDigit isHexChar
          split <;> omega
        rcases h with rfl | rfl
        · exact hdig _ (by omega)
        · exact hdig _ (by omega)
      · exact ih (fun v hv => hl v (by simp [hv])) x h

theorem base64_take32_KeyWF {out : List Nat} (h : out.length = 32) :
    KeyWF (encodeUtf8 ((base64Encode out).take 32)) := by
  have hmem : ∀ c ∈ (base64Encode out).take 32, c ∈ b64Alphabet := fun c hc =>
    base64Encode_mem out c (List.take_subset _ _ hc)
  have hascii : ∀ c ∈ (base64Encode out).take 32, c < 128 := fun c hc =>
    b64Alphabet_lt c (hmem c hc)
  have hwf : StrWF ((base64Encode out).take 32) := fun c hc => Or.inl (by
    have := hascii c hc
    omega)
  constructor
  · rw [encodeUtf8_ascii_length hascii, List.length_take, base64Encode_length, h]
    decide
  · exact encodeUtf8_lt hwf

theorem base64_take16_ivWF {r : List Nat} (h : r.length = 16) :
    StateWF (encodeUtf8 ((base64Encode r).take 16)) := by
  have hmem : ∀ c ∈ (base64Encode r).take 16, c ∈ b64Alphabet := fun c hc =>
    base64Encode_mem r c (List.take_subset _ _ hc)
  have hascii : ∀ c ∈ (base64Encode r).take 16, c < 128 := fun c hc =>
    b64Alphabet_lt c (hmem c hc)
  have hwf : StrWF ((base64Encode r).take 16) := fun c hc => Or.inl (by
    have := hascii c hc
    omega)
  constructor
  · rw [encodeUtf8_ascii_length hascii, List.length_take, base64Encode_length, h]
    decide
  · exact encodeUtf8_lt hwf

theorem encryption_decryption {kb ivb : List Nat} (P : Str) (hkb : KeyWF kb)
    (hivb : StateWF ivb) (hP : StrWF P) :
    CryptographProcessor.decryption ⟨kb, ivb⟩ (CryptographProcessor.encryption ⟨kb, ivb⟩ P) =
      .ok P := by
  have hpadlt : ∀ x ∈ pad16 (encodeUtf8 P), x < 256 := pad16_lt (encodeUtf8_lt hP)
  have hblocks : ∀ b ∈ chunk16 (pad16 (encodeUtf8 P)), StateWF b :=
    chunk16_wf (pad16 (encodeUtf8 P)).length _ rfl (pad16_mod _) hpadlt
  have hctblocks : ∀ c ∈ cbcEncrypt kb ivb (chunk16 (pad16 (encodeUtf8 P))), StateWF c :=
    cbcEncrypt_wf hkb _ ivb hivb hblocks
  have hctlen : ∀ c ∈ cbcEncrypt kb ivb (chunk16 (pad16 (encodeUtf8 P))), c.length = 16 :=
    fun c hc => (hctblocks c hc).1
  have hctlt : ∀ x ∈ (cbcEncrypt kb ivb (chunk16 (pad16 (encodeUtf8 P)))).flatten, x < 256 :=
    flatten_blocks_lt (fun b hb => (hctblocks b hb).2)
  unfold CryptographProcessor.decryption CryptographProcessor.encryption
  rw [hexDecode_hexEncode hctlt]
  simp only []
  rw [if_pos (by rw [flatten_blocks16 hctlen]; omega)]
  rw [chunk16_blocks _ hctlen]
  rw [cbcDecrypt_cbcEncrypt hkb _ ivb hivb hblocks]
  rw [flatten_chunk16, unpad16_pad16]
  simp only []
  rw [decodeUtf8_encodeUtf8 hP]

theorem main_ok_spec (r1 r2 r3 scryptOut : List Nat)
    (scryptSync : Str → Str → Nat → Except CryptoError (List Nat)) (target : Str)
    (h3 : r3.length = 16) (hso : scryptOut.length = 32)
    (hsc : scryptSync (CryptographProcessor.createRandomBytes 16 r1)
      (CryptographProcessor.createRandomBytes 16 r2) 32 = .ok scryptOut)
    (ht : StrWF target) :
    CryptographProcessor.main (.ok r1) (.ok r2) (.ok r3) scryptSync target =
      ([CryptographProcessor.pwLogLabel ++ CryptographProcessor.createRandomBytes 16 r1,
        CryptographProcessor.saltLogLabel ++ CryptographProcessor.createRandomBytes 16 r2,
        CryptographProcessor.ivLogLabel ++ CryptographProcessor.createRandomBytes 16 r3,
        CryptographProcessor.keyLogLabel ++ (base64Encode scryptOut).take 32,
        CryptographProcessor.encLogLabel ++ CryptographProcessor.encryption
          ⟨encodeUtf8 ((base64Encode scryptOut).take 32),
           encodeUtf8 ((base64Encode r3).take 16)⟩ target,
        CryptographProcessor.decLogLabel ++ target],
       .ok [CryptographProcessor.encryption
          ⟨encodeUtf8 ((base64Encode scryptOut).take 32),
           encodeUtf8 ((base64Encode r3).take 16)⟩ target, target]) := by
  have hkb := base64_take32_KeyWF hso
  have hivb := base64_take16_ivWF h3
  unfold CryptographProcessor.main
  simp only []
  unfold CryptographProcessor.createCommonKey
  simp only [CryptographProcessor.keyLength]
  rw [hsc]
  simp only []
  unfold CryptographProcessor.createCipher CryptographProcessor.createDecipher
  simp only [CryptographProcessor.createRandomBytes]
  rw [if_pos ⟨hkb.1, hivb.1⟩]
  simp only []
  rw [encryption_decryption target hkb hivb ht]
  simp only [List.cons_append, List.nil_append]

theorem cbcEncrypt_length (key : List Nat) : ∀ (bs : List (List Nat)) (iv : List Nat),
    (cbcEncrypt key iv bs).length = bs.length := by
  intro bs
  induction bs with
  | nil => intro iv; rfl
  | cons b t ih =>
      intro iv
      simp only [cbcEncrypt, List.length_cons]
      rw [ih]

theorem encryption_hexChars {kb ivb : List Nat} (P : Str) (hkb : KeyWF kb)
    (hivb : StateWF ivb) (hP : StrWF P) :
    ∀ c ∈ CryptographProcessor.encryption ⟨kb, ivb⟩ P, isHexChar c := by
  have hpadlt : ∀ x ∈ pad16 (encodeUtf8 P), x < 256 := pad16_lt (encodeUtf8_lt hP)
  have hblocks : ∀ b ∈ chunk16 (pad16 (encodeUtf8 P)), StateWF b :=
    chunk16_wf (pad16 (encodeUtf8 P)).length _ rfl (pad16_mod _) hpadlt
  have hctblocks : ∀ c ∈ cbcEncrypt kb ivb (chunk16 (pad16 (encodeUtf8 P))), StateWF c :=
    cbcEncrypt_wf hkb _ ivb hivb hblocks
  exact hexEncode_mem _ (flatten_blocks_lt (fun b hb => (hctblocks b hb).2))

theorem createCipher_eq_createDecipher (ck : CommonKey) (iv : InitializationVector) :
    CryptographProcessor.createCipher ck iv = CryptographProcessor.createDecipher ck iv := rfl

/-- C1: for every plaintext string P and every (key, IV) pair accepted by the
cipher construction (32 UTF-8 key bytes, 16 IV bytes, as the pipeline
produces), decrypting the result of encrypting P — encryption via
`cipher.update` plus `cipher.final`, decryption via a freshly constructed
decipher bound to the same key and IV — returns P exactly. -/
theorem C1_roundtrip (key iv P : Str) (cipher decipher : CipherContext)
    (hkeyLen : (encodeUtf8 key).length = 32) (hkeyWF : StrWF key)
    (hivLen : (encodeUtf8 iv).length = 16) (hivWF : StrWF iv) (hP : StrWF P)
    (hc : CryptographProcessor.createCipher ⟨key⟩ ⟨iv⟩ = .ok cipher)
    (hd : CryptographProcessor.createDecipher ⟨key⟩ ⟨iv⟩ = .ok decipher) :
    CryptographProcessor.decryption decipher (CryptographProcessor.encryption cipher P) =
      .ok P := by
  unfold CryptographProcessor.createCipher at hc
  unfold CryptographProcessor.createDecipher at hd
  simp only [] at hc hd
  rw [if_pos ⟨hkeyLen, hivLen⟩] at hc hd
  have hcc := Except.ok.inj hc
  have hdd := Except.ok.inj hd
  rw [← hcc, ← hdd]
  exact encryption_decryption P ⟨hkeyLen, encodeUtf8_lt hkeyWF⟩
    ⟨hivLen, encodeUtf8_lt hivWF⟩ hP

theorem C1_roundtrip_witness :
    CryptographProcessor.decryption
      ⟨encodeUtf8 (List.replicate 32 65), encodeUtf8 (List.replicate 16 48)⟩
      (CryptographProcessor.encryption
        ⟨encodeUtf8 (List.replicate 32 65), encodeUtf8 (List.replicate 16 48)⟩ testStr) =
      .ok testStr :=
  C1_roundtrip (List.replicate 32 65) (List.replicate 16 48) testStr _ _
    (by decide) (by decide) (by decide) (by decide) (by decide) rfl rfl

/-- C2: for every input string, `main` returns exactly two encoded strings —
first the hexadecimal ciphertext, then the recovered plaintext — and the
recovered plaintext equals the input string. -/
theorem C2_main_contract (r1 r2 r3 scryptOut : List Nat)
    (scryptSync : Str → Str → Nat → Except CryptoError (List Nat)) (target : Str)
    (h3 : r3.length = 16) (hso : scryptOut.length = 32)
    (hsc : scryptSync (CryptographProcessor.createRandomBytes 16 r1)
      (CryptographProcessor.createRandomBytes 16 r2) 32 = .ok scryptOut)
    (ht : StrWF target) :
    ∃ ct : Str,
      (CryptographProcessor.main (.ok r1) (.ok r2) (.ok r3) scryptSync target).2 =
        .ok [ct, target] ∧ (∀ c ∈ ct, isHexChar c) := by
  refine ⟨CryptographProcessor.encryption
    ⟨encodeUtf8 ((base64Encode scryptOut).take 32),
     encodeUtf8 ((base64Encode r3).take 16)⟩ target, ?_, ?_⟩
  · rw [main_ok_spec r1 r2 r3 scryptOut scryptSync target h3 hso hsc ht]
  · exact encryption_hexChars target (base64_take32_KeyWF hso) (base64_take16_ivWF h3) ht

theorem C2_main_contract_witness :
    ∃ ct : Str,
      (CryptographProcessor.main (.ok (List.replicate 16 0)) (.ok (List.replicate 16 0))
        (.ok (List.replicate 16 0)) (fun _ _ _ => .ok (List.replicate 32 0)) testStr).2 =
        .ok [ct, testStr] ∧ (∀ c ∈ ct, isHexChar c) :=
  C2_main_contract (List.replicate 16 0) (List.replicate 16 0) (List.replicate 16 0)
    (List.replicate 32 0) (fun _ _ _ => .ok (List.replicate 32 0)) testStr
    (by decide) (by decide) rfl (by decide)

/-- C3: the generated Password, Salt and InitializationVector are each exactly
16 bytes long (their UTF-8 encodings have length 16), and the derived
CommonKey is exactly 32 bytes long. -/
theorem C3_length_invariants (r1 r2 r3 scryptOut : List Nat)
    (scryptSync : Str → Str → Nat → Except CryptoError (List Nat))
    (h1 : r1.length = 16) (h2 : r2.length = 16) (h3 : r3.length = 16)
    (hso : scryptOut.length = 32)
    (hsc : scryptSync (CryptographProcessor.createRandomBytes 16 r1)
      (CryptographProcessor.createRandomBytes 16 r2) 32 = .ok scryptOut) :
    (encodeUtf8 (CryptographProcessor.createRandomBytes 16 r1)).length = 16 ∧
    (encodeUtf8 (CryptographProcessor.createRandomBytes 16 r2)).length = 16 ∧
    (encodeUtf8 (CryptographProcessor.createRandomBytes 16 r3)).length = 16 ∧
    ∃ ck : CommonKey,
      CryptographProcessor.createCommonKey scryptSync
        ⟨CryptographProcessor.createRandomBytes 16 r1⟩
        ⟨CryptographProcessor.createRandomBytes 16 r2⟩ = .ok ck ∧
      (encodeUtf8 ck.value).length = 32 := by
  refine ⟨?_, ?_, ?_, ⟨(base64Encode scryptOut).take 32⟩, ?_, ?_⟩
  · exact (base64_take16_ivWF h1).1
  · exact (base64_take16_ivWF h2).1
  · exact (base64_take16_ivWF h3).1
  · unfold CryptographProcessor.createCommonKey
    simp only [CryptographProcessor.keyLength]
    rw [hsc]
  · exact (base64_take32_KeyWF hso).1

theorem C3_length_invariants_witness :
    (encodeUtf8 (CryptographProcessor.createRandomBytes 16 (List.replicate 16 0))).length = 16 ∧
    (encodeUtf8 (CryptographProcessor.createRandomBytes 16 (List.replicate 16 0))).length = 16 ∧
    (encodeUtf8 (CryptographProcessor.createRandomBytes 16 (List.replicate 16 0))).length = 16 ∧
    ∃ ck : CommonKey,
      CryptographProcessor.createCommonKey (fun _ _ _ => .ok (List.replicate 32 0))
        ⟨CryptographProcessor.createRandomBytes 16 (List.replicate 16 0)⟩
        ⟨CryptographProcessor.createRandomBytes 16 (List.replicate 16 0)⟩ = .ok ck ∧
      (encodeUtf8 ck.value).length = 32 :=
  C3_length_invariants (List.replicate 16 0) (List.replicate 16 0) (List.replicate 16 0)
    (List.replicate 32 0) (fun _ _ _ => .ok (List.replicate 32 0))
    (by decide) (by decide) (by decide) (by decide) rfl

/-- C4: key derivation is deterministic — two invocations of
`createCommonKey` on the same scrypt function, password and salt yield
byte-for-byte identical CommonKey values. -/
theorem C4_derivation_deterministic
    (scryptSync : Str → Str → Nat → Except CryptoError (List Nat))
    (p : Password) (s : Salt) (k1 k2 : CommonKey)
    (h1 : CryptographProcessor.createCommonKey scryptSync p s = .ok k1)
    (h2 : CryptographProcessor.createCommonKey scryptSync p s = .ok k2) :
    k1.value = k2.value := by
  rw [h1] at h2
  rw [Except.ok.inj h2]

theorem C4_derivation_deterministic_witness :
    (⟨(base64Encode (List.replicate 32 0)).take 32⟩ : CommonKey).value =
      (⟨(base64Encode (List.replicate 32 0)).take 32⟩ : CommonKey).value :=
  C4_derivation_deterministic (fun _ _ _ => .ok (List.replicate 32 0)) ⟨[]⟩ ⟨[]⟩ _ _ rfl rfl

/-- C5: for the fixed scenario — plaintext `test`, password `0123456789abcdef`,
salt `fedcba9876543210`, IV of 16 zero bytes — derivation yields a
deterministic CommonKey, encryption yields one fixed hexadecimal string, and
decrypting that string returns exactly `test`. -/
theorem C5_fixed_scenario (scryptSync : Str → Str → Nat → Except CryptoError (List Nat))
    (out : List Nat)
    (hsc : scryptSync scenarioPassword scenarioSalt 32 = .ok out)
    (hso : out.length = 32) :
    ∃ ck : CommonKey,
      CryptographProcessor.createCommonKey scryptSync ⟨scenarioPassword⟩ ⟨scenarioSalt⟩ =
        .ok ck ∧
      ∃ ct : Str,
        CryptographProcessor.encryption ⟨encodeUtf8 ck.value, List.replicate 16 0⟩ testStr =
          ct ∧
        (∀ c ∈ ct, isHexChar c) ∧
        CryptographProcessor.decryption ⟨encodeUtf8 ck.value, List.replicate 16 0⟩ ct =
          .ok testStr := by
  have hiv : StateWF (List.replicate 16 0) := by
    constructor
    · simp
    · intro x hx
      have := List.eq_of_mem_replicate hx
      omega
  refine ⟨⟨(base64Encode out).take 32⟩, ?_, _, rfl, ?_, ?_⟩
  · unfold CryptographProcessor.createCommonKey
    simp only [CryptographProcessor.keyLength]
    rw [hsc]
  · exact encryption_hexChars testStr (base64_take32_KeyWF hso) hiv (by decide)
  · exact encryption_decryption testStr (base64_take32_KeyWF hso) hiv (by decide)

theorem C5_fixed_scenario_witness :
    ∃ ck : CommonKey,
      CryptographProcessor.createCommonKey (fun _ _ _ => .ok (List.replicate 32 7))
        ⟨scenarioPassword⟩ ⟨scenarioSalt⟩ = .ok ck ∧
      ∃ ct : Str,
        CryptographProcessor.encryption ⟨encodeUtf8 ck.value, List.replicate 16 0⟩ testStr =
          ct ∧
        (∀ c ∈ ct, isHexChar c) ∧
        CryptographProcessor.decryption ⟨encodeUtf8 ck.value, List.replicate 16 0⟩ ct =
          .ok testStr :=
  C5_fixed_scenario (fun _ _ _ => .ok (List.replicate 32 7)) (List.replicate 32 7)
    rfl (by decide)

/-- C7: no error is caught or retried inside the pipeline: a failure of any
step — random generation, key derivation, cipher construction, decipher
construction or decryption — makes `main` abort the remaining steps and return
that error unmodified; an exhaustive case analysis pins `main`'s output in
every branch; and the four error categories are pairwise distinguishable. -/
theorem C7_error_propagation :
    (∀ (e : CryptoError) (r2 r3 : Except CryptoError (List Nat)) scryptSync (target : Str),
      CryptographProcessor.main (.error e) r2 r3 scryptSync target = ([], .error e)) ∧
    (∀ (e : CryptoError) (rb1 : List Nat) (r3 : Except CryptoError (List Nat)) scryptSync
        (target : Str),
      CryptographProcessor.main (.ok rb1) (.error e) r3 scryptSync target = ([], .error e)) ∧
    (∀ (e : CryptoError) (rb1 rb2 : List Nat) scryptSync (target : Str),
      CryptographProcessor.main (.ok rb1) (.ok rb2) (.error e) scryptSync target =
        ([], .error e)) ∧
    (∀ (e : CryptoError) (rb1 rb2 rb3 : List Nat)
        (scryptSync : Str → Str → Nat → Except CryptoError (List Nat)) (target : Str),
      scryptSync (CryptographProcessor.createRandomBytes 16 rb1)
          (CryptographProcessor.createRandomBytes 16 rb2) 32 = .error e →
      CryptographProcessor.main (.ok rb1) (.ok rb2) (.ok rb3) scryptSync target =
        ([CryptographProcessor.pwLogLabel ++ CryptographProcessor.createRandomBytes 16 rb1,
          CryptographProcessor.saltLogLabel ++ CryptographProcessor.createRandomBytes 16 rb2,
          CryptographProcessor.ivLogLabel ++ CryptographProcessor.createRandomBytes 16 rb3],
         .error e)) ∧
    (∀ (e : CryptoError) (rb1 rb2 rb3 scryptOut : List Nat)
        (scryptSync : Str → Str → Nat → Except CryptoError (List Nat)) (target : Str),
      scryptSync (CryptographProcessor.createRandomBytes 16 rb1)
          (CryptographProcessor.createRandomBytes 16 rb2) 32 = .ok scryptOut →
      CryptographProcessor.createCipher ⟨(base64Encode scryptOut).take 32⟩
          ⟨CryptographProcessor.createRandomBytes 16 rb3⟩ = .error e →
      CryptographProcessor.main (.ok rb1) (.ok rb2) (.ok rb3) scryptSync target =
        ([CryptographProcessor.pwLogLabel ++ CryptographProcessor.createRandomBytes 16 rb1,
          CryptographProcessor.saltLogLabel ++ CryptographProcessor.createRandomBytes 16 rb2,
          CryptographProcessor.ivLogLabel ++ CryptographProcessor.createRandomBytes 16 rb3,
          CryptographProcessor.keyLogLabel ++ (base64Encode scryptOut).take 32],
         .error e)) ∧
    (∀ (e : CryptoError) (rb1 rb2 rb3 scryptOut : List Nat)
        (scryptSync : Str → Str → Nat → Except CryptoError (List Nat)) (target : Str),
      scryptSync (CryptographProcessor.createRandomBytes 16 rb1)
          (CryptographProcessor.createRandomBytes 16 rb2) 32 = .ok scryptOut →
      CryptographProcessor.createDecipher ⟨(base64Encode scryptOut).take 32⟩
          ⟨CryptographProcessor.createRandomBytes 16 rb3⟩ = .error e →
      CryptographProcessor.main (.ok rb1) (.ok rb2) (.ok rb3) scryptSync target =
        ([CryptographProcessor.pwLogLabel ++ CryptographProcessor.createRandomBytes 16 rb1,
          CryptographProcessor.saltLogLabel ++ CryptographProcessor.createRandomBytes 16 rb2,
          CryptographProcessor.ivLogLabel ++ CryptographProcessor.createRandomBytes 16 rb3,
          CryptographProcessor.keyLogLabel ++ (base64Encode scryptOut).take 32],
         .error e)) ∧
    (∀ (r1 r2 r3 : Except CryptoError (List Nat))
        (scryptSync : Str → Str → Nat → Except CryptoError (List Nat)) (target : Str),
      (∃ e, r1 = .error e ∧
        CryptographProcessor.main r1 r2 r3 scryptSync target = ([], .error e)) ∨
      (∃ rb1 e, r1 = .ok rb1 ∧ r2 = .error e ∧
        CryptographProcessor.main r1 r2 r3 scryptSync target = ([], .error e)) ∨
      (∃ rb1 rb2 e, r1 = .ok rb1 ∧ r2 = .ok rb2 ∧ r3 = .error e ∧
        CryptographProcessor.main r1 r2 r3 scryptSync target = ([], .error e)) ∨
      (∃ rb1 rb2 rb3 e, r1 = .ok rb1 ∧ r2 = .ok rb2 ∧ r3 = .ok rb3 ∧
        CryptographProcessor.createCommonKey scryptSync
          ⟨CryptographProcessor.createRandomBytes 16 rb1⟩
          ⟨CryptographProcessor.createRandomBytes 16 rb2⟩ = .error e ∧
        CryptographProcessor.main r1 r2 r3 scryptSync target =
          ([CryptographProcessor.pwLogLabel ++ CryptographProcessor.createRandomBytes 16 rb1,
            CryptographProcessor.saltLogLabel ++ CryptographProcessor.createRandomBytes 16 rb2,
            CryptographProcessor.ivLogLabel ++ CryptographProcessor.createRandomBytes 16 rb3],
           .error e)) ∨
      (∃ rb1 rb2 rb3 ck e, r1 = .ok rb1 ∧ r2 = .ok rb2 ∧ r3 = .ok rb3 ∧
        CryptographProcessor.createCommonKey scryptSync
          ⟨CryptographProcessor.createRandomBytes 16 rb1⟩
          ⟨CryptographProcessor.createRandomBytes 16 rb2⟩ = .ok ck ∧
        CryptographProcessor.createCipher ck
          ⟨CryptographProcessor.createRandomBytes 16 rb3⟩ = .error e ∧
        CryptographProcessor.main r1 r2 r3 scryptSync target =
          ([CryptographProcessor.pwLogLabel ++ CryptographProcessor.createRandomBytes 16 rb1,
            CryptographProcessor.saltLogLabel ++ CryptographProcessor.createRandomBytes 16 rb2,
            CryptographProcessor.ivLogLabel ++ CryptographProcessor.createRandomBytes 16 rb3,
            CryptographProcessor.keyLogLabel ++ ck.value],
           .error e)) ∨
      (∃ rb1 rb2 rb3 ck cipher e, r1 = .ok rb1 ∧ r2 = .ok rb2 ∧ r3 = .ok rb3 ∧
        CryptographProcessor.createCommonKey scryptSync
          ⟨CryptographProcessor.createRandomBytes 16 rb1⟩
          ⟨CryptographProcessor.createRandomBytes 16 rb2⟩ = .ok ck ∧
        CryptographProcessor.createCipher ck
          ⟨CryptographProcessor.createRandomBytes 16 rb3⟩ = .ok cipher ∧
        CryptographProcessor.createDecipher ck
          ⟨CryptographProcessor.createRandomBytes 16 rb3⟩ = .error e ∧
        CryptographProcessor.main r1 r2 r3 scryptSync target =
          ([CryptographProcessor.pwLogLabel ++ CryptographProcessor.createRandomBytes 16 rb1,
            CryptographProcessor.saltLogLabel ++ CryptographProcessor.createRandomBytes 16 rb2,
            CryptographProcessor.ivLogLabel ++ CryptographProcessor.createRandomBytes 16 rb3,
            CryptographProcessor.keyLogLabel ++ ck.value],
           .error e)) ∨
      (∃ rb1 rb2 rb3 ck cipher decipher e, r1 = .ok rb1 ∧ r2 = .ok rb2 ∧ r3 = .ok rb3 ∧
        CryptographProcessor.createCommonKey scryptSync
          ⟨CryptographProcessor.createRandomBytes 16 rb1⟩
          ⟨CryptographProcessor.createRandomBytes 16 rb2⟩ = .ok ck ∧
        CryptographProcessor.createCipher ck
          ⟨CryptographProcessor.createRandomBytes 16 rb3⟩ = .ok cipher ∧
        CryptographProcessor.createDecipher ck
          ⟨CryptographProcessor.createRandomBytes 16 rb3⟩ = .ok decipher ∧
        CryptographProcessor.decryption decipher
          (CryptographProcessor.encryption cipher target) = .error e ∧
        CryptographProcessor.main r1 r2 r3 scryptSync target =
          ([CryptographProcessor.pwLogLabel ++ CryptographProcessor.createRandomBytes 16 rb1,
            CryptographProcessor.saltLogLabel ++ CryptographProcessor.createRandomBytes 16 rb2,
            CryptographProcessor.ivLogLabel ++ CryptographProcessor.createRandomBytes 16 rb3,
            CryptographProcessor.keyLogLabel ++ ck.value],
           .error e)) ∨
      (∃ rb1 rb2 rb3 ck cipher decipher dec, r1 = .ok rb1 ∧ r2 = .ok rb2 ∧ r3 = .ok rb3 ∧
        CryptographProcessor.createCommonKey scryptSync
          ⟨CryptographProcessor.createRandomBytes 16 rb1⟩
          ⟨CryptographProcessor.createRandomBytes 16 rb2⟩ = .ok ck ∧
        CryptographProcessor.createCipher ck
          ⟨CryptographProcessor.createRandomBytes 16 rb3⟩ = .ok cipher ∧
        CryptographProcessor.createDecipher ck
          ⟨CryptographProcessor.createRandomBytes 16 rb3⟩ = .ok decipher ∧
        CryptographProcessor.decryption decipher
          (CryptographProcessor.encryption cipher target) = .ok dec ∧
        CryptographProcessor.main r1 r2 r3 scryptSync target =
          ([CryptographProcessor.pwLogLabel ++ CryptographProcessor.createRandomBytes 16 rb1,
            CryptographProcessor.saltLogLabel ++ CryptographProcessor.createRandomBytes 16 rb2,
            CryptographProcessor.ivLogLabel ++ CryptographProcessor.createRandomBytes 16 rb3,
            CryptographProcessor.keyLogLabel ++ ck.value,
            CryptographProcessor.encLogLabel ++ CryptographProcessor.encryption cipher target,
            CryptographProcessor.decLogLabel ++ dec],
           .ok [CryptographProcessor.encryption cipher target, dec]))) ∧
    (CryptoError.RandomGenerationError ≠ CryptoError.KeyDerivationError ∧
     CryptoError.RandomGenerationError ≠ CryptoError.CipherConfigurationError ∧
     CryptoError.RandomGenerationError ≠ CryptoError.DecryptionIntegrityError ∧
     CryptoError.KeyDerivationError ≠ CryptoError.CipherConfigurationError ∧
     CryptoError.KeyDerivationError ≠ CryptoError.DecryptionIntegrityError ∧
     CryptoError.CipherConfigurationError ≠ CryptoError.DecryptionIntegrityError) := by
  refine ⟨fun e r2 r3 scryptSync target => rfl,
    fun e rb1 r3 scryptSync target => rfl,
    fun e rb1 rb2 scryptSync target => rfl,
    ?_, ?_, ?_, ?_, by decide⟩
  · intro e rb1 rb2 rb3 scryptSync target hfail
    unfold CryptographProcessor.main
    simp only []
    unfold CryptographProcessor.createCommonKey
    simp only [CryptographProcessor.keyLength]
    rw [hfail]
  · intro e rb1 rb2 rb3 scryptOut scryptSync target hsc hcip
    unfold CryptographProcessor.main
    simp only []
    unfold CryptographProcessor.createCommonKey
    simp only [CryptographProcessor.keyLength]
    rw [hsc]
    simp only []
    rw [hcip]
    simp only [List.cons_append, List.nil_append]
  · intro e rb1 rb2 rb3 scryptOut scryptSync target hsc hdecip
    have hcip : CryptographProcessor.createCipher ⟨(base64Encode scryptOut).take 32⟩
        ⟨CryptographProcessor.createRandomBytes 16 rb3⟩ = .error e := by
      rw [createCipher_eq_createDecipher]
      exact hdecip
    unfold CryptographProcessor.main
    simp only []
    unfold CryptographProcessor.createCommonKey
    simp only [CryptographProcessor.keyLength]
    rw [hsc]
    simp only []
    rw [hcip]
    simp only [List.cons_append, List.nil_append]
  · intro r1 r2 r3 scryptSync target
    cases r1 with
    | error e => exact Or.inl ⟨e, rfl, rfl⟩
    | ok rb1 =>
    cases r2 with
    | error e => exact Or.inr (Or.inl ⟨rb1, e, rfl, rfl, rfl⟩)
    | ok rb2 =>
    cases r3 with
    | error e => exact Or.inr (Or.inr (Or.inl ⟨rb1, rb2, e, rfl, rfl, rfl, rfl⟩))
    | ok rb3 =>
    cases hck : CryptographProcessor.createCommonKey scryptSync
        ⟨CryptographProcessor.createRandomBytes 16 rb1⟩
        ⟨CryptographProcessor.createRandomBytes 16 rb2⟩ with
    | error e =>
        refine Or.inr (Or.inr (Or.inr (Or.inl ⟨rb1, rb2, rb3, e, rfl, rfl, rfl, hck, ?_⟩)))
        unfold CryptographProcessor.main
        simp only [hck]
    | ok ck =>
    cases hcip : CryptographProcessor.createCipher ck
        ⟨CryptographProcessor.createRandomBytes 16 rb3⟩ with
    | error e =>
        refine Or.inr (Or.inr (Or.inr (Or.inr (Or.inl
          ⟨rb1, rb2, rb3, ck, e, rfl, rfl, rfl, hck, hcip, ?_⟩))))
        unfold CryptographProcessor.main
        simp only [hck, hcip]
        simp only [List.cons_append, List.nil_append]
    | ok cipher =>
    cases hdecip : CryptographProcessor.createDecipher ck
        ⟨CryptographProcessor.createRandomBytes 16 rb3⟩ with
    | error e =>
        refine Or.inr (Or.inr (Or.inr (Or.inr (Or.inr (Or.inl
          ⟨rb1, rb2, rb3, ck, cipher, e, rfl, rfl, rfl, hck, hcip, hdecip, ?_⟩)))))
        unfold CryptographProcessor.main
        simp only [hck, hcip, hdecip]
        simp only [List.cons_append, List.nil_append]
    | ok decipher =>
    cases hdec : CryptographProcessor.decryption decipher
        (CryptographProcessor.encryption cipher target) with
    | error e =>
        refine Or.inr (Or.inr (Or.inr (Or.inr (Or.inr (Or.inr (Or.inl
          ⟨rb1, rb2, rb3, ck, cipher, decipher, e, rfl, rfl, rfl, hck, hcip, hdecip, hdec,
            ?_⟩))))))
        unfold CryptographProcessor.main
        simp only [hck, hcip, hdecip, hdec]
        simp only [List.cons_append, List.nil_append]
    | ok dec =>
        refine Or.inr (Or.inr (Or.inr (Or.inr (Or.inr (Or.inr (Or.inr
          ⟨rb1, rb2, rb3, ck, cipher, decipher, dec, rfl, rfl, rfl, hck, hcip, hdecip, hdec,
            ?_⟩))))))
        unfold CryptographProcessor.main
        simp only [hck, hcip, hdecip, hdec]
        simp only [List.cons_append, List.nil_append]

theorem C7_error_propagation_witness :
    (CryptographProcessor.main (.ok (List.replicate 16 0)) (.ok (List.replicate 16 0))
      (.ok (List.replicate 16 0)) (fun _ _ _ => .error .KeyDerivationError) testStr =
      ([CryptographProcessor.pwLogLabel ++
          CryptographProcessor.createRandomBytes 16 (List.replicate 16 0),
        CryptographProcessor.saltLogLabel ++
          CryptographProcessor.createRandomBytes 16 (List.replicate 16 0),
        CryptographProcessor.ivLogLabel ++
          CryptographProcessor.createRandomBytes 16 (List.replicate 16 0)],
       .error .KeyDerivationError)) ∧
    (CryptographProcessor.main (.ok (List.replicate 16 0)) (.ok (List.replicate 16 0))
      (.ok (List.replicate 16 0)) (fun _ _ _ => .ok []) testStr =
      ([CryptographProcessor.pwLogLabel ++
          CryptographProcessor.createRandomBytes 16 (List.replicate 16 0),
        CryptographProcessor.saltLogLabel ++
          CryptographProcessor.createRandomBytes 16 (List.replicate 16 0),
        CryptographProcessor.ivLogLabel ++
          CryptographProcessor.createRandomBytes 16 (List.replicate 16 0),
        CryptographProcessor.keyLogLabel ++ (base64Encode []).take 32],
       .error .CipherConfigurationError)) :=
  ⟨C7_error_propagation.2.2.2.1 .KeyDerivationError (List.replicate 16 0) (List.replicate 16 0)
    (List.replicate 16 0) (fun _ _ _ => .error .KeyDerivationError) testStr rfl,
   C7_error_propagation.2.2.2.2.1 .CipherConfigurationError (List.replicate 16 0)
    (List.replicate 16 0) (List.replicate 16 0) [] (fun _ _ _ => .ok []) testStr rfl rfl⟩

/-- C8 counterexample: at a concrete input, a `main` invocation emits console
output — including the password value — so it is false that a pipeline
invocation has no side effect beyond returning its two result values. -/
theorem C8_counterexample :
    (CryptographProcessor.main (.ok (List.replicate 16 0)) (.ok (List.replicate 16 0))
      (.ok (List.replicate 16 0)) (fun _ _ _ => .ok (List.replicate 32 0)) testStr).1 ≠ [] ∧
    CryptographProcessor.pwLogLabel ++
        CryptographProcessor.createRandomBytes 16 (List.replicate 16 0) ∈
      (CryptographProcessor.main (.ok (List.replicate 16 0)) (.ok (List.replicate 16 0))
        (.ok (List.replicate 16 0)) (fun _ _ _ => .ok (List.replicate 32 0)) testStr).1 := by
  rw [main_ok_spec (List.replicate 16 0) (List.replicate 16 0) (List.replicate 16 0)
    (List.replicate 32 0) (fun _ _ _ => .ok (List.replicate 32 0)) testStr
    (by decide) (by decide) rfl (by decide)]
  exact ⟨by simp, by simp⟩

/-- C8 (amended): a successful pipeline invocation's only side effect beyond
returning its two result values is console logging, and that log consists of
exactly six entries — the password, salt, IV and derived-key values followed
by the ciphertext and the decrypted data — so the intermediate secret material
is emitted on the console channel. -/
theorem C8_logging (r1 r2 r3 scryptOut : List Nat)
    (scryptSync : Str → Str → Nat → Except CryptoError (List Nat)) (target : Str)
    (h3 : r3.length = 16) (hso : scryptOut.length = 32)
    (hsc : scryptSync (CryptographProcessor.createRandomBytes 16 r1)
      (CryptographProcessor.createRandomBytes 16 r2) 32 = .ok scryptOut)
    (ht : StrWF target) :
    ∃ ct : Str,
      CryptographProcessor.main (.ok r1) (.ok r2) (.ok r3) scryptSync target =
        ([CryptographProcessor.pwLogLabel ++ CryptographProcessor.createRandomBytes 16 r1,
          CryptographProcessor.saltLogLabel ++ CryptographProcessor.createRandomBytes 16 r2,
          CryptographProcessor.ivLogLabel ++ CryptographProcessor.createRandomBytes 16 r3,
          CryptographProcessor.keyLogLabel ++ (base64Encode scryptOut).take 32,
          CryptographProcessor.encLogLabel ++ ct,
          CryptographProcessor.decLogLabel ++ target],
         .ok [ct, target]) :=
  ⟨_, main_ok_spec r1 r2 r3 scryptOut scryptSync target h3 hso hsc ht⟩

theorem C8_logging_witness :
    ∃ ct : Str,
      CryptographProcessor.main (.ok (List.replicate 16 0)) (.ok (List.replicate 16 0))
        (.ok (List.replicate 16 0)) (fun _ _ _ => .ok (List.replicate 32 0)) testStr =
        ([CryptographProcessor.pwLogLabel ++
            CryptographProcessor.createRandomBytes 16 (List.replicate 16 0),
          CryptographProcessor.saltLogLabel ++
            CryptographProcessor.createRandomBytes 16 (List.replicate 16 0),
          CryptographProcessor.ivLogLabel ++
            CryptographProcessor.createRandomBytes 16 (List.replicate 16 0),
          CryptographProcessor.keyLogLabel ++ (base64Encode (List.replicate 32 0)).take 32,
          CryptographProcessor.encLogLabel ++ ct,
          CryptographProcessor.decLogLabel ++ testStr],
         .ok [ct, testStr]) :=
  C8_logging (List.replicate 16 0) (List.replicate 16 0) (List.replicate 16 0)
    (List.replicate 32 0) (fun _ _ _ => .ok (List.replicate 32 0)) testStr
    (by decide) (by decide) rfl (by decide)

/-- C9: every character of the generated Password, Salt and IV strings, and of
the derived CommonKey string, is drawn from the base64 alphabet (including the
padding character), because the raw random and scrypt bytes are base64-encoded
and then truncated to the target length. -/
theorem C9_base64_alphabet :
    (∀ (size : Nat) (r : List Nat),
      ∀ c ∈ CryptographProcessor.createRandomBytes size r, isBase64Char c) ∧
    (∀ (scryptSync : Str → Str → Nat → Except CryptoError (List Nat)) (p : Password) (s : Salt)
        (ck : CommonKey),
      CryptographProcessor.createCommonKey scryptSync p s = .ok ck →
      ∀ c ∈ ck.value, isBase64Char c) := by
  constructor
  · intro size r c hc
    exact base64Encode_mem r c (List.take_subset _ _ hc)
  · intro scryptSync p s ck hck c hc
    unfold CryptographProcessor.createCommonKey at hck
    cases hval : scryptSync p.value s.value CryptographProcessor.keyLength with
    | error e => rw [hval] at hck; cases hck
    | ok k =>
        rw [hval] at hck
        have := Except.ok.inj hck
        rw [← this] at hc
        exact base64Encode_mem k c (List.take_subset _ _ hc)

theorem C9_base64_alphabet_witness :
    (∀ c ∈ CryptographProcessor.createRandomBytes 16 (List.replicate 16 0), isBase64Char c) ∧
    ∀ c ∈ ((⟨(base64Encode (List.replicate 32 0)).take 32⟩ : CommonKey)).value,
      isBase64Char c :=
  ⟨C9_base64_alphabet.1 16 (List.replicate 16 0),
    C9_base64_alphabet.2 (fun _ _ _ => .ok (List.replicate 32 0)) ⟨[]⟩ ⟨[]⟩
      ⟨(base64Encode (List.replicate 32 0)).take 32⟩ rfl⟩

/-- C10: for every plaintext whose UTF-8 encoding has byte length L, the
ciphertext returned by the encryption operation is a hexadecimal string of
exactly `32 * (L / 16 + 1)` characters — a positive multiple of 32 — because
PKCS padding always appends a full padding block when L is a multiple of the
16-byte block size. -/
theorem C10_ciphertext_length {kb ivb : List Nat} (P : Str) (hkb : KeyWF kb)
    (hivb : StateWF ivb) (hP : StrWF P) :
    (CryptographProcessor.encryption ⟨kb, ivb⟩ P).length =
      32 * ((encodeUtf8 P).length / 16 + 1) ∧
    (CryptographProcessor.encryption ⟨kb, ivb⟩ P).length % 32 = 0 ∧
    0 < (CryptographProcessor.encryption ⟨kb, ivb⟩ P).length := by
  have hpadlt : ∀ x ∈ pad16 (encodeUtf8 P), x < 256 := pad16_lt (encodeUtf8_lt hP)
  have hblocks : ∀ b ∈ chunk16 (pad16 (encodeUtf8 P)), StateWF b :=
    chunk16_wf (pad16 (encodeUtf8 P)).length _ rfl (pad16_mod _) hpadlt
  have hctblocks : ∀ c ∈ cbcEncrypt kb ivb (chunk16 (pad16 (encodeUtf8 P))), StateWF c :=
    cbcEncrypt_wf hkb _ ivb hivb hblocks
  have hcount : 16 * (chunk16 (pad16 (encodeUtf8 P))).length = (pad16 (encodeUtf8 P)).length := by
    rw [← flatten_blocks16 (fun b hb => (hblocks b hb).1), flatten_chunk16]
  have hmain : (CryptographProcessor.encryption ⟨kb, ivb⟩ P).length =
      32 * ((encodeUtf8 P).length / 16 + 1) := by
    unfold CryptographProcessor.encryption
    rw [hexEncode_length, flatten_blocks16 (fun b hb => (hctblocks b hb).1),
      cbcEncrypt_length]
    have hpl := pad16_length (encodeUtf8 P)
    omega
  exact ⟨hmain, by omega, by omega⟩

theorem C10_ciphertext_length_witness :
    (CryptographProcessor.encryption
      ⟨encodeUtf8 (List.replicate 32 65), encodeUtf8 (List.replicate 16 48)⟩ testStr).length =
      32 * ((encodeUtf8 testStr).length / 16 + 1) ∧
    (CryptographProcessor.encryption
      ⟨encodeUtf8 (List.replicate 32 65), encodeUtf8 (List.replicate 16 48)⟩ testStr).length %
      32 = 0 ∧
    0 < (CryptographProcessor.encryption
      ⟨encodeUtf8 (List.replicate 32 65), encodeUtf8 (List.replicate 16 48)⟩ testStr).length :=
  C10_ciphertext_length testStr
    ⟨by decide, by decide⟩ ⟨by decide, by decide⟩ (by decide)
